import Mathlib

/-!
Verification of the returning-results entity updator
(`src/query-builder/ReturningResultsEntityUpdator.ts`): a shallow embedding
of the insert-path and update-path reconcilers, the returning-column
selectors and the conflict-column resolver, together with theorems about
the spec's claims.

JavaScript values are modelled by `JSVal`; plain objects (`ObjectLiteral`)
are association lists of string keys.  External collaborators (driver
capability oracle, query service, merge utility, metadata provider) are
modelled as explicit parameters; asynchronous per-entity work is modelled
sequentially in entity order, which is faithful because each task writes a
disjoint positional slot.
-/

namespace Typeorm

/-- A JavaScript value: `undefined`, `null`, scalars, plain objects
(association lists of fields) and arrays. -/
inductive JSVal where
  | undef : JSVal
  | null : JSVal
  | num : Int → JSVal
  | str : String → JSVal
  | obj : List (String × JSVal) → JSVal
  | arr : List JSVal → JSVal
deriving Repr

/-- A plain JavaScript object (TypeORM's `ObjectLiteral`): entity objects,
generated maps, identifier maps and query rows all have this shape. -/
abbrev Entity := List (String × JSVal)

/-- Property read `o[k]`: the first binding of `k`, or `undefined` when the
key is absent (JavaScript semantics). -/
def getField (e : Entity) (k : String) : JSVal :=
  match e.find? (fun kv => kv.1 = k) with
  | some kv => kv.2
  | none => JSVal.undef

/-- Property write `o[k] = v`: overwrite every binding of `k` when present,
otherwise append a new binding. -/
def setField (e : Entity) (k : String) (v : JSVal) : Entity :=
  if e.any (fun kv => kv.1 = k) then
    e.map (fun kv => if kv.1 = k then (k, v) else kv)
  else
    e ++ [(k, v)]

/-- The keys of an object. -/
def keysOf (e : Entity) : List String := e.map Prod.fst

/-- `value !== undefined && value !== null`: the test used by the source
both for conflict-column values and for identifier values. -/
def JSVal.isUsable : JSVal → Bool
  | JSVal.undef => false
  | JSVal.null => false
  | _ => true

/-- Modelled from the spec: the Merge Utility (`EntityManager.merge`, not
under `src/`) — "overlaying source field values onto destination in
argument order, later sources winning; must not remove fields already set
on destination that no source addresses".  A single-source overlay;
multi-source merging is iterated overlay. -/
def mergeInto (dst src : Entity) : Entity :=
  src.foldl (fun d kv => setField d kv.1 kv.2) dst

/-- Merging an optional source: merging `undefined` is a no-op (the source
passes `returningResult[index]`, which may be an empty slot, to the Merge
Utility). -/
def mergeOpt (dst : Entity) (src : Option Entity) : Entity :=
  match src with
  | some s => mergeInto dst s
  | none => dst

/-- Column metadata (`ColumnMetadata`, external Metadata Provider): only
the flags and names the reconciler reads. -/
structure ColumnMetadata where
  propertyPath : String
  databaseName : String
  isGenerated : Bool
  asExpression : Option String
  isUpdateDate : Bool
  isVersion : Bool
  isDeleteDate : Bool
deriving Repr, DecidableEq

/-- `column.getEntityValue(entity)`: read the column's property from the
entity. -/
def ColumnMetadata.getEntityValue (c : ColumnMetadata) (e : Entity) : JSVal :=
  getField e c.propertyPath

/-- Entity metadata (`EntityMetadata`, external Metadata Provider): the
column lists the reconciler consults.  `insertionReturningColumns` models
the result of `metadata.getInsertionReturningColumns()`. -/
structure EntityMetadata where
  targetName : String
  columns : List ColumnMetadata
  primaryColumns : List ColumnMetadata
  insertionReturningColumns : List ColumnMetadata
deriving Repr

/-- Modelled from the spec: the Metadata Provider's entity-id extraction
`getEntityIdMap(entity) -> mapping|null` (`EntityMetadata.getEntityIdMap`,
not under `src/`): the map of primary-key column values when the entity has
a discoverable primary key (every primary-key column defined and
non-null), and null otherwise. -/
def EntityMetadata.getEntityIdMap (md : EntityMetadata) (e : Entity) : Option Entity :=
  if !md.primaryColumns.isEmpty
      && md.primaryColumns.all (fun c => (c.getEntityValue e).isUsable) then
    some (md.primaryColumns.map (fun c => (c.propertyPath, c.getEntityValue e)))
  else
    none

/-- The upsert conflict target from `expressionMap.onUpdate.conflict`: a
single column name or a list of column names. -/
inductive ConflictTarget where
  | single : String → ConflictTarget
  | many : List String → ConflictTarget
deriving Repr

/-- The slice of `QueryExpressionMap` the reconciler reads:
`mainAlias.metadata`, `extraReturningColumns`, the `locallyGenerated`
index-keyed record, and `onUpdate?.conflict`. -/
structure QueryExpressionMap where
  metadata : EntityMetadata
  extraReturningColumns : List ColumnMetadata
  locallyGenerated : List (Nat × Entity)
  onUpdateConflict : Option ConflictTarget
deriving Repr

/-- `entityIndex in this.expressionMap.locallyGenerated` plus the lookup. -/
def lookupLocallyGenerated (lg : List (Nat × Entity)) (i : Nat) : Option Entity :=
  match lg.find? (fun p => p.1 = i) with
  | some p => some p.2
  | none => none

/-- `TypeORMError` (just the message). -/
structure TypeORMError where
  message : String
deriving Repr, DecidableEq

/-- A supplemental read issued through the Query Service
(`queryRunner.manager.createQueryBuilder() ... getOne()/getMany()`):
selected column paths, the equality filters of the `where`, whether
soft-deleted rows are included, and whether it is a `getMany` (batched)
read. -/
structure QuerySpec where
  selectCols : List String
  target : String
  whereConds : List Entity
  withDeleted : Bool
  many : Bool
deriving Repr

/-- The external collaborators: the Capability Oracle
(`driver.isReturningSqlSupported`, `driver.options.type`,
`driver.createGeneratedMap`) and the Query Service (`getOne`/`getMany`).
`createGeneratedMap` receives the optional `entityIndex`/`entityNum`
arguments only on the insert path. -/
structure Env where
  returningSupported : String → Bool
  driverType : String
  createGeneratedMap : EntityMetadata → JSVal → Option Nat → Option Nat → Option Entity
  qGetOne : QuerySpec → Option Entity
  qGetMany : QuerySpec → List Entity

/-- The mutable fields of `UpdateResult` the update path reads/writes. -/
structure UpdateResult where
  raw : JSVal
  generatedMaps : List Entity

/-- The mutable fields of `InsertResult` the insert path reads/writes.  An
`identifiers` entry is `none` when the source pushed `undefined` (an
entity whose id map is not computable). -/
structure InsertResult where
  raw : JSVal
  generatedMaps : List Entity
  identifiers : List (Option Entity)

namespace ReturningResultsEntityUpdator

/-- `rawItem[0]` in the oracle raw-shape normalization: the first element
of an array, otherwise `undefined`. -/
def jsFirst : JSVal → JSVal
  | JSVal.arr (x :: _) => x
  | _ => JSVal.undef

/-- The oracle `reduce`: `newRaw[extraReturningColumns[i].databaseName] =
rawItem[0]`.  Raw items beyond the extra-returning-column list are
skipped. -/
def oracleReduceAux (cols : List ColumnMetadata) : List JSVal → Nat → Entity → Entity
  | [], _, acc => acc
  | item :: rest, i, acc =>
    match cols.get? i with
    | some c => oracleReduceAux cols rest (i + 1) (setField acc c.databaseName (jsFirst item))
    | none => oracleReduceAux cols rest (i + 1) acc

/-- Flatten an oracle-shaped raw array (`[[v0], [v1], ...]`, one
single-value array per extra returning column) into one object. -/
def oracleReduce (items : List JSVal) (cols : List ColumnMetadata) : Entity :=
  oracleReduceAux cols items 0 []

/-- `Array.isArray(raw) ? raw[entityIndex] : raw`. -/
def rawAt (raw : JSVal) (i : Nat) : JSVal :=
  match raw with
  | JSVal.arr items => items.getD i JSVal.undef
  | r => r

/-- `getUpdationReturningColumns`: columns we need returned from the
database when we update an entity. -/
def getUpdationReturningColumns (em : QueryExpressionMap) : List ColumnMetadata :=
  em.metadata.columns.filter (fun column =>
    column.asExpression.isSome || column.isUpdateDate || column.isVersion)

/-- `getSoftDeletionReturningColumns`: columns we need returned from the
database when we soft delete or restore an entity. -/
def getSoftDeletionReturningColumns (em : QueryExpressionMap) : List ColumnMetadata :=
  em.metadata.columns.filter (fun column =>
    column.asExpression.isSome || column.isUpdateDate || column.isVersion
      || column.isDeleteDate)

/-- The names of the configured conflict target
(`onUpdate.conflict` wrapped into an array when it is a single name). -/
def conflictNames : Option ConflictTarget → List String
  | none => []
  | some (ConflictTarget.single s) => [s]
  | some (ConflictTarget.many ss) => ss

/-- The `conflicts.forEach` loop of `getConflictColumns`: look each name
up by exact `databaseName` match and push the matching column, silently
skipping unresolved names. -/
def getConflictColumnsAux (md : EntityMetadata) :
    List String → List ColumnMetadata → List ColumnMetadata
  | [], acc => acc
  | conflictPath :: rest, acc =>
    match md.columns.find? (fun col => col.databaseName = conflictPath) with
    | some column => getConflictColumnsAux md rest (acc ++ [column])
    | none => getConflictColumnsAux md rest acc

/-- `getConflictColumns`: resolve each configured conflict name to column
metadata by exact `databaseName` match, silently dropping unresolved
names. -/
def getConflictColumns (em : QueryExpressionMap) : List ColumnMetadata :=
  match em.onUpdateConflict with
  | none => []
  | some ct => getConflictColumnsAux em.metadata (conflictNames (some ct)) []

/-- The oracle raw-shape normalization in the update path: when the driver
is oracle, the raw result is an array and there are extra returning
columns, flatten it into one object (`updateResult.raw = raw.reduce(...)`,
mutated in place, hence threaded through the per-entity loop). -/
def updNormalizeRaw (env : Env) (em : QueryExpressionMap) (raw : JSVal) : JSVal :=
  match raw with
  | JSVal.arr items =>
    if env.driverType = "oracle" && !em.extraReturningColumns.isEmpty then
      JSVal.obj (oracleReduce items em.extraReturningColumns)
    else JSVal.arr items
  | r => r

/-- The supplemental read of the update path: select primary-key plus
updation columns, filtered by the entity id, including soft-deleted
rows. -/
def updateQuerySpec (md : EntityMetadata) (updationColumns : List ColumnMetadata)
    (entityId : Entity) : QuerySpec :=
  { selectCols :=
      md.primaryColumns.map (fun column => md.targetName ++ "." ++ column.propertyPath)
        ++ updationColumns.map (fun column => md.targetName ++ "." ++ column.propertyPath),
    target := md.targetName,
    whereConds := [entityId],
    withDeleted := true,
    many := false }

/-- The observable outcome of the update path: the (possibly normalized)
raw result, the entities after in-place merging, the pushed
`generatedMaps`, and the supplemental reads issued. -/
structure UpdateOutcome where
  raw : JSVal
  entities : List Entity
  generatedMaps : List Entity
  queries : List QuerySpec

/-- One pass of `update` over the remaining entities (the per-entity async
tasks write disjoint slots, so entity order is a faithful
serialization). -/
def updateAux (env : Env) (em : QueryExpressionMap) :
    List Entity → Nat → JSVal → Except TypeORMError UpdateOutcome
  | [], _, raw => Except.ok { raw := raw, entities := [], generatedMaps := [], queries := [] }
  | entity :: rest, entityIndex, raw₀ =>
    let md := em.metadata
    if env.returningSupported "update" then
      let raw := updNormalizeRaw env em raw₀
      let result := rawAt raw entityIndex
      match env.createGeneratedMap md result none none with
      | some returningColumns =>
        match updateAux env em rest (entityIndex + 1) raw with
        | Except.ok o =>
          Except.ok { raw := o.raw,
                      entities := mergeInto entity returningColumns :: o.entities,
                      generatedMaps := returningColumns :: o.generatedMaps,
                      queries := o.queries }
        | Except.error err => Except.error err
      | none =>
        match updateAux env em rest (entityIndex + 1) raw with
        | Except.ok o =>
          Except.ok { raw := o.raw, entities := entity :: o.entities,
                      generatedMaps := o.generatedMaps, queries := o.queries }
        | Except.error err => Except.error err
    else
      let updationColumns := em.extraReturningColumns
      if updationColumns.isEmpty then
        match updateAux env em rest (entityIndex + 1) raw₀ with
        | Except.ok o =>
          Except.ok { raw := o.raw, entities := entity :: o.entities,
                      generatedMaps := o.generatedMaps, queries := o.queries }
        | Except.error err => Except.error err
      else
        match md.getEntityIdMap entity with
        | none =>
          Except.error ⟨"Cannot update entity because entity id is not set in the entity."⟩
        | some entityId =>
          let spec := updateQuerySpec md updationColumns entityId
          match env.qGetOne spec with
          | some loadedReturningColumns =>
            match updateAux env em rest (entityIndex + 1) raw₀ with
            | Except.ok o =>
              Except.ok { raw := o.raw,
                          entities := mergeInto entity loadedReturningColumns :: o.entities,
                          generatedMaps := loadedReturningColumns :: o.generatedMaps,
                          queries := spec :: o.queries }
            | Except.error err => Except.error err
          | none =>
            match updateAux env em rest (entityIndex + 1) raw₀ with
            | Except.ok o =>
              Except.ok { raw := o.raw, entities := entity :: o.entities,
                          generatedMaps := o.generatedMaps, queries := spec :: o.queries }
            | Except.error err => Except.error err

/-- `update(updateResult, entities)`: updates entities with special
columns after an update-family query; pushes onto
`updateResult.generatedMaps`. -/
def update (env : Env) (em : QueryExpressionMap) (res : UpdateResult)
    (entities : List Entity) : Except TypeORMError UpdateOutcome :=
  match updateAux env em entities 0 res.raw with
  | Except.ok o => Except.ok { o with generatedMaps := res.generatedMaps ++ o.generatedMaps }
  | Except.error err => Except.error err

/-- The entities produced by the RETURNING-supported update path, as a
function of the once-normalized raw result `nraw`: each entity is merged
with its extracted map exactly when the driver produced one (empty or
not). -/
def updSupportedEntities (env : Env) (em : QueryExpressionMap) (nraw : JSVal) :
    List Entity → Nat → List Entity
  | [], _ => []
  | entity :: rest, i =>
    (match env.createGeneratedMap em.metadata (rawAt nraw i) none none with
     | some returningColumns => mergeInto entity returningColumns
     | none => entity) :: updSupportedEntities env em nraw rest (i + 1)

/-- The ledger produced by the RETURNING-supported update path, as a
function of the once-normalized raw result `nraw`: an entry is appended
exactly when the driver produced a map — even an empty one. -/
def updSupportedLedger (env : Env) (em : QueryExpressionMap) (nraw : JSVal) :
    List Entity → Nat → List Entity
  | [], _ => []
  | _ :: rest, i =>
    match env.createGeneratedMap em.metadata (rawAt nraw i) none none with
    | some returningColumns => returningColumns :: updSupportedLedger env em nraw rest (i + 1)
    | none => updSupportedLedger env em nraw rest (i + 1)

/-- The raw-shape normalization in the insert path: when the raw result is
an array and there are extra returning columns, oracle flattens per-column
nested arrays into one object, spanner unwraps the one-element outer
array. -/
def insNormalizeRaw (env : Env) (em : QueryExpressionMap) (raw : JSVal) : JSVal :=
  match raw with
  | JSVal.arr items =>
    if !em.extraReturningColumns.isEmpty then
      if env.driverType = "oracle" then
        JSVal.obj (oracleReduce items em.extraReturningColumns)
      else if env.driverType = "spanner" then
        items.getD 0 JSVal.undef
      else JSVal.arr items
    else JSVal.arr items
  | r => r

/-- Step 1 of the insert path: for each entity, normalize the raw result,
extract the driver generated map for the entity's position (`|| {}`),
overlay the locally-generated override when recorded for that position,
and merge the result into the entity.  Returns the final raw, the ordered
generated maps and the merged entities. -/
def insertGeneratedMaps (env : Env) (em : QueryExpressionMap) (entityNum : Nat) :
    List Entity → Nat → JSVal → JSVal × List Entity × List Entity
  | [], _, raw => (raw, [], [])
  | entity :: rest, entityIndex, raw₀ =>
    let md := em.metadata
    let raw := insNormalizeRaw env em raw₀
    let result := rawAt raw entityIndex
    let generatedMap₀ :=
      (env.createGeneratedMap md result (some entityIndex) (some entityNum)).getD []
    let generatedMap :=
      match lookupLocallyGenerated em.locallyGenerated entityIndex with
      | some lg => mergeInto generatedMap₀ lg
      | none => generatedMap₀
    let r := insertGeneratedMaps env em entityNum rest (entityIndex + 1) raw
    (r.1, generatedMap :: r.2.1, mergeInto entity generatedMap :: r.2.2)

/-- The partition of entities (after step 1's merging) into known-id
identifier maps (`entityIds`, in entity order) and conflict-based entities
with their original positions (`conflictBasedEntities`). -/
def partitionByEntityId (md : EntityMetadata) : List Entity → Nat → List Entity × List (Entity × Nat)
  | [], _ => ([], [])
  | entity :: rest, index =>
    let r := partitionByEntityId md rest (index + 1)
    match md.getEntityIdMap entity with
    | some entityId => (entityId :: r.1, r.2)
    | none => (r.1, (entity, index) :: r.2)

/-- The equality filter of a conflict-based supplemental read: every
conflict column whose current entity value is neither undefined nor
null. -/
def conflictWhere (conflictColumns : List ColumnMetadata) (entity : Entity) : Entity :=
  conflictColumns.foldl (fun whereCondition column =>
    let value := column.getEntityValue entity
    if value.isUsable then setField whereCondition column.propertyPath value
    else whereCondition) []

/-- The select list of both recovery reads: primary-key columns plus the
(filtered) insertion-returning columns. -/
def recoverySelect (md : EntityMetadata) (insertionColumns : List ColumnMetadata) : List String :=
  md.primaryColumns.map (fun column => md.targetName ++ "." ++ column.propertyPath)
    ++ insertionColumns.map (fun column => md.targetName ++ "." ++ column.propertyPath)

/-- The per-entity conflict-based recovery read (a `getOne`). -/
def conflictQuerySpec (md : EntityMetadata) (insertionColumns : List ColumnMetadata)
    (whereCondition : Entity) : QuerySpec :=
  { selectCols := recoverySelect md insertionColumns,
    target := md.targetName,
    whereConds := [whereCondition],
    withDeleted := false,
    many := false }

/-- The batched known-id recovery read (a `getMany` filtered by every
known identifier). -/
def batchQuerySpec (md : EntityMetadata) (insertionColumns : List ColumnMetadata)
    (entityIds : List Entity) : QuerySpec :=
  { selectCols := recoverySelect md insertionColumns,
    target := md.targetName,
    whereConds := entityIds,
    withDeleted := false,
    many := true }

/-- Conflict-based recovery: for each conflict-based entity, build its
equality filter; when the filter is non-empty issue one `getOne` and, when
a row matches, record it at the entity's original position.  Returns the
updated positional slots and the reads issued (the concurrent tasks write
disjoint positions, serialized here in list order). -/
def conflictRecoveryAux (env : Env) (md : EntityMetadata)
    (insertionColumns conflictColumns : List ColumnMetadata) :
    List (Entity × Nat) → List (Option Entity) → List (Option Entity) × List QuerySpec
  | [], rr => (rr, [])
  | (entity, index) :: rest, rr =>
    let whereCondition := conflictWhere conflictColumns entity
    if whereCondition.isEmpty then
      conflictRecoveryAux env md insertionColumns conflictColumns rest rr
    else
      let spec := conflictQuerySpec md insertionColumns whereCondition
      let rr' :=
        match env.qGetOne spec with
        | some conflictResult => rr.set index (some conflictResult)
        | none => rr
      let r := conflictRecoveryAux env md insertionColumns conflictColumns rest rr'
      (r.1, spec :: r.2)

/-- The mapping of the batched read's rows back onto positions: walk the
entities in order and, for each one whose re-derived identifier map exists
with all values defined and non-null, assign the next row of the raw
result (`returningResult[index] = resultWithIds[resultIndex++]`). -/
def assignRowsAux (md : EntityMetadata) (rows : List Entity) :
    List Entity → Nat → Nat → List (Option Entity) → List (Option Entity)
  | [], _, _, rr => rr
  | entity :: rest, index, resultIndex, rr =>
    match md.getEntityIdMap entity with
    | some entityId =>
      if entityId.all (fun kv => kv.2.isUsable) then
        assignRowsAux md rows rest (index + 1) (resultIndex + 1)
          (rr.set index rows[resultIndex]?)
      else
        assignRowsAux md rows rest (index + 1) resultIndex rr
    | none => assignRowsAux md rows rest (index + 1) resultIndex rr

/-- The test the mapping loop applies to each entity: a re-derived
identifier map exists and all its values are defined and non-null. -/
def isKnownId (md : EntityMetadata) (entity : Entity) : Bool :=
  match md.getEntityIdMap entity with
  | some entityId => entityId.all (fun kv => kv.2.isUsable)
  | none => false

/-- The observable outcome of the insert path: the normalized raw, the
entities after in-place merging, the pushed `generatedMaps` and
`identifiers`, the positional `returningResult` slots, and the
supplemental reads issued. -/
structure InsertOutcome where
  raw : JSVal
  entities : List Entity
  generatedMaps : List Entity
  identifiers : List (Option Entity)
  returningResult : List (Option Entity)
  queries : List QuerySpec

/-- The conflict-based recovery stage of the insert path: run only when
there are conflict-based entities and a non-empty conflict-column set;
otherwise the positional slots stay empty and no read is issued. -/
def conflictSlots (env : Env) (em : QueryExpressionMap)
    (insertionColumns : List ColumnMetadata) (entities₁ : List Entity) (n : Nat) :
    List (Option Entity) × List QuerySpec :=
  let md := em.metadata
  let conflictBasedEntities := (partitionByEntityId md entities₁ 0).2
  let rr₀ : List (Option Entity) := List.replicate n none
  if conflictBasedEntities.isEmpty then (rr₀, ([] : List QuerySpec))
  else if (getConflictColumns em).isEmpty then (rr₀, [])
  else conflictRecoveryAux env md insertionColumns (getConflictColumns em)
    conflictBasedEntities rr₀

/-- The whole supplemental-recovery block of the insert path when inline
RETURNING is unsupported: partition the (step-1-merged) entities, run the
per-entity conflict-based recovery, then the batched known-id recovery,
filling positional slots.  Returns the slots and the reads issued. -/
def recoverySlots (env : Env) (em : QueryExpressionMap)
    (insertionColumns : List ColumnMetadata) (entities₁ : List Entity) (n : Nat) :
    List (Option Entity) × List QuerySpec :=
  let md := em.metadata
  let entityIds := (partitionByEntityId md entities₁ 0).1
  let c := conflictSlots env em insertionColumns entities₁ n
  if !insertionColumns.isEmpty && !entityIds.isEmpty then
    let spec := batchQuerySpec md insertionColumns entityIds
    (assignRowsAux md (env.qGetMany spec) entities₁ 0 0 c.1, c.2 ++ [spec])
  else (c.1, c.2)

/-- `insert(insertResult, entities)`: updates entities with special
columns after an insert-family query; pushes one `identifiers` entry and
one `generatedMaps` entry per entity. -/
def insert (env : Env) (em : QueryExpressionMap) (res : InsertResult)
    (entities : List Entity) : InsertOutcome :=
  let md := em.metadata
  let ph1 := insertGeneratedMaps env em entities.length entities 0 res.raw
  let generatedMaps := ph1.2.1
  let entities₁ := ph1.2.2
  let isReturningClauseSupported := env.returningSupported "insert"
  let insertionColumns := md.insertionReturningColumns.filter (fun column =>
    !column.isGenerated || isReturningClauseSupported)
  if isReturningClauseSupported then
    { raw := ph1.1, entities := entities₁,
      generatedMaps := res.generatedMaps ++ generatedMaps,
      identifiers := res.identifiers ++ entities₁.map (fun e => md.getEntityIdMap e),
      returningResult := [],
      queries := [] }
  else
    let slots := recoverySlots env em insertionColumns entities₁ entities.length
    let entities₂ := (entities₁.zip slots.1).map (fun p => mergeOpt p.1 p.2)
    let generatedMaps₂ := (generatedMaps.zip slots.1).map (fun p => mergeOpt p.1 p.2)
    { raw := ph1.1, entities := entities₂,
      generatedMaps := res.generatedMaps ++ generatedMaps₂,
      identifiers := res.identifiers ++ entities₂.map (fun e => md.getEntityIdMap e),
      returningResult := slots.1,
      queries := slots.2 }

/-- The entities after step 1 of the insert path (generated-map merging),
the list against which the partition and the batched row mapping run. -/
def phase1Entities (env : Env) (em : QueryExpressionMap) (res : InsertResult)
    (es : List Entity) : List Entity :=
  (insertGeneratedMaps env em es.length es 0 res.raw).2.2

/-- The insertion-returning columns after the generated-column filter
(generated columns are dropped when inline RETURNING is unsupported). -/
def insertionColumnsOf (env : Env) (em : QueryExpressionMap) : List ColumnMetadata :=
  em.metadata.insertionReturningColumns.filter (fun column =>
    !column.isGenerated || env.returningSupported "insert")

/-- The known-id identifier maps collected by the partition. -/
def entityIdsOf (env : Env) (em : QueryExpressionMap) (res : InsertResult)
    (es : List Entity) : List Entity :=
  (partitionByEntityId em.metadata (phase1Entities env em res es) 0).1

/-- The conflict-based entities (with original positions) collected by the
partition. -/
def conflictEntitiesOf (env : Env) (em : QueryExpressionMap) (res : InsertResult)
    (es : List Entity) : List (Entity × Nat) :=
  (partitionByEntityId em.metadata (phase1Entities env em res es) 0).2

end ReturningResultsEntityUpdator

/-! ### Concrete fixtures, mirroring the repository's test entity
(`test/github-issues/11516/entity/Test.ts`: generated primary key `id`,
unique conflict pair `key1`/`key2`, plain `value`), used by witnesses and
counterexamples. -/

def exIdCol : ColumnMetadata := ⟨"id", "id", true, none, false, false, false⟩

def exUpdAtCol : ColumnMetadata := ⟨"updatedAt", "updated_at", false, none, true, false, false⟩

def exKey1Col : ColumnMetadata := ⟨"key1", "key1", false, none, false, false, false⟩

def exKey2Col : ColumnMetadata := ⟨"key2", "key2", false, none, false, false, false⟩

def exValueCol : ColumnMetadata := ⟨"value", "value", false, none, false, false, false⟩

def exDeletedAtCol : ColumnMetadata := ⟨"deletedAt", "deleted_at", false, none, false, false, true⟩

def exMd : EntityMetadata :=
  { targetName := "Test"
    columns := [exIdCol, exKey1Col, exKey2Col, exValueCol, exUpdAtCol]
    primaryColumns := [exIdCol]
    insertionReturningColumns := [exUpdAtCol] }

def exEm : QueryExpressionMap :=
  { metadata := exMd
    extraReturningColumns := []
    locallyGenerated := []
    onUpdateConflict := some (ConflictTarget.many ["key1", "key2"]) }

def exEmNoConflict : QueryExpressionMap := { exEm with onUpdateConflict := none }

def exEmExtra : QueryExpressionMap := { exEm with extraReturningColumns := [exUpdAtCol] }

/-- A database row for the `Test` entity. -/
def exRow (i : Int) (u : String) : Entity :=
  [("id", JSVal.num i), ("updatedAt", JSVal.str u)]

/-- A backend without inline RETURNING whose reads return nothing. -/
def exEnvBase : Env :=
  { returningSupported := fun _ => false
    driverType := "postgres"
    createGeneratedMap := fun _ _ _ _ => none
    qGetOne := fun _ => none
    qGetMany := fun _ => [] }

/-- A backend without inline RETURNING whose batched read returns the rows
for ids 1 and 2 in reversed order. -/
def exEnvReorder : Env := { exEnvBase with qGetMany := fun _ => [exRow 2 "u2", exRow 1 "u1"] }

/-- A backend without inline RETURNING whose single-row read finds the
pre-existing conflicting row with id 7. -/
def exEnvConflict : Env :=
  { exEnvBase with
    qGetOne := fun _ => some [("id", JSVal.num 7), ("updatedAt", JSVal.str "uc")] }

/-- A backend with inline RETURNING whose driver produces an empty
generated map. -/
def exEnvEmptyMap : Env :=
  { exEnvBase with
    returningSupported := fun _ => true
    createGeneratedMap := fun _ _ _ _ => some [] }

/-- A backend with inline RETURNING whose driver extracts the raw row
itself as the generated map. -/
def exEnvSupported : Env :=
  { exEnvBase with
    returningSupported := fun _ => true
    createGeneratedMap := fun _ raw _ _ =>
      match raw with
      | JSVal.obj fields => some fields
      | _ => none }

def exEnt1 : Entity := [("id", JSVal.num 1)]

def exEnt2 : Entity := [("id", JSVal.num 2)]

def exEntConflict : Entity :=
  [("key1", JSVal.str "x"), ("key2", JSVal.str "y"), ("value", JSVal.str "new")]

def exInsertRes : InsertResult := ⟨JSVal.undef, [], []⟩

def exUpdateRes : UpdateResult := ⟨JSVal.undef, []⟩

/-! ### Basic lemmas about object field access and merging -/

theorem mergeInto_nil (dst : Entity) : mergeInto dst [] = dst := rfl

theorem mergeInto_cons (dst : Entity) (kv : String × JSVal) (rest : List (String × JSVal)) :
    mergeInto dst (kv :: rest) = mergeInto (setField dst kv.1 kv.2) rest := rfl

theorem find?_setField_map (e : List (String × JSVal)) (k k' : String) (v : JSVal)
    (h : k ≠ k') :
    List.find? (fun kv => kv.1 = k) (e.map (fun kv => if kv.1 = k' then (k', v) else kv))
      = List.find? (fun kv => kv.1 = k) e := by
  induction e with
  | nil => rfl
  | cons kv rest ih =>
    by_cases hk : kv.1 = k'
    · rw [List.map_cons, if_pos hk]
      rw [List.find?_cons_of_neg _ (by simp [Ne.symm h]),
        List.find?_cons_of_neg _ (by simp [hk, Ne.symm h]), ih]
    · rw [List.map_cons, if_neg hk]
      by_cases hkk : kv.1 = k
      · rw [List.find?_cons_of_pos _ (by simp [hkk]), List.find?_cons_of_pos _ (by simp [hkk])]
      · rw [List.find?_cons_of_neg _ (by simp [hkk]),
          List.find?_cons_of_neg _ (by simp [hkk]), ih]

theorem getField_setField_ne (e : Entity) (k k' : String) (v : JSVal) (h : k ≠ k') :
    getField (setField e k' v) k = getField e k := by
  unfold setField
  split
  · unfold getField
    rw [find?_setField_map e k k' v h]
  · unfold getField
    rw [List.find?_append]
    have hnone : List.find? (fun kv => kv.1 = k) [(k', v)] = none := by
      simp [List.find?, Ne.symm h]
    rw [hnone]
    cases List.find? (fun kv => kv.1 = k) e <;> rfl

theorem mem_keysOf_setField_of_mem (e : Entity) (k k' : String) (v : JSVal)
    (h : k ∈ keysOf e) : k ∈ keysOf (setField e k' v) := by
  unfold setField
  split
  · unfold keysOf at *
    rcases List.mem_map.1 h with ⟨kv, hkv, hk⟩
    refine List.mem_map.2 ⟨if kv.1 = k' then (k', v) else kv, List.mem_map_of_mem _ hkv, ?_⟩
    by_cases hc : kv.1 = k'
    · rw [if_pos hc]
      exact hc.symm.trans hk
    · rw [if_neg hc]
      exact hk
  · unfold keysOf at *
    simp only [List.map_append]
    exact List.mem_append_left _ h

theorem getField_mergeInto_of_not_mem (dst src : Entity) (k : String)
    (h : k ∉ keysOf src) : getField (mergeInto dst src) k = getField dst k := by
  induction src generalizing dst with
  | nil => rfl
  | cons kv rest ih =>
    rw [mergeInto_cons]
    have hne : k ≠ kv.1 := by
      intro hk
      exact h (by simp [keysOf, hk])
    have hrest : k ∉ keysOf rest := by
      intro hk
      exact h (by simp [keysOf] at hk ⊢; exact Or.inr hk)
    rw [ih _ hrest, getField_setField_ne _ _ _ _ hne]

theorem mem_keysOf_mergeInto_left (dst src : Entity) (k : String)
    (h : k ∈ keysOf dst) : k ∈ keysOf (mergeInto dst src) := by
  induction src generalizing dst with
  | nil => exact h
  | cons kv rest ih =>
    rw [mergeInto_cons]
    exact ih _ (mem_keysOf_setField_of_mem _ _ _ _ h)

theorem self_mem_keysOf_setField (e : Entity) (k : String) (v : JSVal) :
    k ∈ keysOf (setField e k v) := by
  unfold setField
  split
  · next hany =>
    rcases List.any_eq_true.1 hany with ⟨kv, hkv, hk⟩
    unfold keysOf
    refine List.mem_map.2 ⟨(k, v), ?_, rfl⟩
    refine List.mem_map.2 ⟨kv, hkv, ?_⟩
    simp only [decide_eq_true_eq] at hk
    simp [hk]
  · unfold keysOf
    simp

theorem mem_keysOf_mergeInto_right (dst src : Entity) (k : String)
    (h : k ∈ keysOf src) : k ∈ keysOf (mergeInto dst src) := by
  induction src generalizing dst with
  | nil => cases h
  | cons kv rest ih =>
    rw [mergeInto_cons]
    rcases List.mem_cons.1 h with hk | hk
    · subst hk
      exact mem_keysOf_mergeInto_left _ _ _ (self_mem_keysOf_setField _ _ _)
    · exact ih _ hk

theorem getField_mergeOpt_of_not_mem (dst : Entity) (src : Option Entity) (k : String)
    (h : ∀ s, src = some s → k ∉ keysOf s) :
    getField (mergeOpt dst src) k = getField dst k := by
  cases src with
  | none => rfl
  | some s => exact getField_mergeInto_of_not_mem _ _ _ (h s rfl)

/-! ### Structural lemmas about the reconciler passes -/

namespace ReturningResultsEntityUpdator

theorem insertGeneratedMaps_length (env : Env) (em : QueryExpressionMap) (n : Nat) :
    ∀ (es : List Entity) (i : Nat) (raw : JSVal),
      ((insertGeneratedMaps env em n es i raw).2.1).length = es.length ∧
      ((insertGeneratedMaps env em n es i raw).2.2).length = es.length := by
  intro es
  induction es with
  | nil => intro i raw; exact ⟨rfl, rfl⟩
  | cons e rest ih =>
    intro i raw
    simp only [insertGeneratedMaps, List.length_cons]
    exact ⟨congrArg (· + 1) (ih _ _).1, congrArg (· + 1) (ih _ _).2⟩

theorem conflictRecoveryAux_length (env : Env) (md : EntityMetadata)
    (insertionColumns conflictColumns : List ColumnMetadata) :
    ∀ (cbe : List (Entity × Nat)) (rr : List (Option Entity)),
      ((conflictRecoveryAux env md insertionColumns conflictColumns cbe rr).1).length
        = rr.length := by
  intro cbe
  induction cbe with
  | nil => intro rr; rfl
  | cons p rest ih =>
    intro rr
    obtain ⟨e, idx⟩ := p
    simp only [conflictRecoveryAux]
    split
    · exact ih rr
    · cases h : env.qGetOne (conflictQuerySpec md insertionColumns (conflictWhere conflictColumns e)) with
      | none => simp only [h]; exact ih rr
      | some r => simp only [h]; rw [ih]; exact List.length_set rr idx (some r) ▸ rfl

theorem assignRowsAux_length (md : EntityMetadata) (rows : List Entity) :
    ∀ (es : List Entity) (i ri : Nat) (rr : List (Option Entity)),
      (assignRowsAux md rows es i ri rr).length = rr.length := by
  intro es
  induction es with
  | nil => intro i ri rr; rfl
  | cons e rest ih =>
    intro i ri rr
    simp only [assignRowsAux]
    cases md.getEntityIdMap e with
    | none => exact ih _ _ rr
    | some idm =>
      simp only []
      split
      · rw [ih]; exact (List.length_set rr i _) ▸ rfl
      · exact ih _ _ rr

theorem conflictSlots_length (env : Env) (em : QueryExpressionMap)
    (insertionColumns : List ColumnMetadata) (entities₁ : List Entity) (n : Nat) :
    ((conflictSlots env em insertionColumns entities₁ n).1).length = n := by
  simp only [conflictSlots]
  split
  · exact List.length_replicate n none
  · split
    · exact List.length_replicate n none
    · rw [conflictRecoveryAux_length]
      exact List.length_replicate n none

theorem recoverySlots_length (env : Env) (em : QueryExpressionMap)
    (insertionColumns : List ColumnMetadata) (entities₁ : List Entity) (n : Nat) :
    ((recoverySlots env em insertionColumns entities₁ n).1).length = n := by
  simp only [recoverySlots]
  split
  · rw [assignRowsAux_length]
    exact conflictSlots_length env em insertionColumns entities₁ n
  · exact conflictSlots_length env em insertionColumns entities₁ n

/-! ### Claim theorems -/

/-- C1: for every call to the insert-path reconciler with N input
entities, after it completes the generated-values ledger
(`generatedMaps`) and the identifier map (`identifiers`) on the insert
result each have exactly N entries, and the entry at position i
corresponds to input entity i (the identifier entry at position i is
exactly the identifier map of the reconciled entity at position i),
regardless of how many supplemental queries were issued. -/
theorem insert_ledger_and_identifiers_aligned
    (env : Env) (em : QueryExpressionMap) (res : InsertResult) (entities : List Entity)
    (hg : res.generatedMaps = []) (hi : res.identifiers = []) :
    (insert env em res entities).generatedMaps.length = entities.length ∧
    (insert env em res entities).identifiers.length = entities.length ∧
    (insert env em res entities).entities.length = entities.length ∧
    ∀ i : Nat, (insert env em res entities).identifiers[i]?
      = ((insert env em res entities).entities[i]?).map em.metadata.getEntityIdMap := by
  have h1 := insertGeneratedMaps_length env em entities.length entities 0 res.raw
  have hslots := recoverySlots_length env em
    (em.metadata.insertionReturningColumns.filter (fun column =>
      !column.isGenerated || env.returningSupported "insert"))
    (insertGeneratedMaps env em entities.length entities 0 res.raw).2.2 entities.length
  simp only [insert, hg, hi, List.nil_append]
  split
  · refine ⟨h1.1, ?_, h1.2, ?_⟩
    · rw [List.length_map]; exact h1.2
    · intro i; rw [List.getElem?_map]
  · refine ⟨?_, ?_, ?_, ?_⟩
    · simp only [List.length_map, List.length_zip, h1.1, hslots, min_self]
    · simp only [List.length_map, List.length_zip, h1.2, hslots, min_self]
    · simp only [List.length_map, List.length_zip, h1.2, hslots, min_self]
    · intro i; rw [List.getElem?_map]

/-- Witness for C1: on a fresh insert result with two entities, both
ledgers come back with exactly two entries. -/
theorem insert_ledger_and_identifiers_aligned_witness :
    exInsertRes.generatedMaps = [] ∧ exInsertRes.identifiers = [] ∧
    (insert exEnvReorder exEm exInsertRes [exEnt1, exEnt2]).generatedMaps.length = 2 ∧
    (insert exEnvReorder exEm exInsertRes [exEnt1, exEnt2]).identifiers.length = 2 :=
  ⟨rfl, rfl,
    (insert_ledger_and_identifiers_aligned exEnvReorder exEm exInsertRes
      [exEnt1, exEnt2] rfl rfl).1,
    (insert_ledger_and_identifiers_aligned exEnvReorder exEm exInsertRes
      [exEnt1, exEnt2] rfl rfl).2.1⟩

theorem getConflictColumnsAux_filterMap (md : EntityMetadata) :
    ∀ (l : List String) (acc : List ColumnMetadata),
      getConflictColumnsAux md l acc
        = acc ++ l.filterMap
            (fun conflictPath =>
              md.columns.find? (fun col => col.databaseName = conflictPath)) := by
  intro l
  induction l with
  | nil => intro acc; simp [getConflictColumnsAux]
  | cons x rest ih =>
    intro acc
    cases h : md.columns.find? (fun col => col.databaseName = x) with
    | some b => simp [getConflictColumnsAux, h, ih, List.filterMap_cons]
    | none => simp [getConflictColumnsAux, h, ih, List.filterMap_cons]

/-- C7: the conflict-column resolver, given a single column name or a list
of names, resolves each name to column metadata by exact
(database-)name match and returns exactly the columns for the names that
match, in configuration order; unresolved names are silently dropped and
the resolver is total (never raises). -/
theorem getConflictColumns_resolves_by_exact_name (em : QueryExpressionMap) :
    getConflictColumns em
      = (conflictNames em.onUpdateConflict).filterMap
          (fun conflictPath =>
            em.metadata.columns.find? (fun col => col.databaseName = conflictPath)) := by
  cases hc : em.onUpdateConflict with
  | none => simp [getConflictColumns, hc, conflictNames]
  | some ct =>
    simp only [getConflictColumns, hc]
    exact (getConflictColumnsAux_filterMap em.metadata
      (conflictNames (some ct)) []).trans (List.nil_append _)

/-- C8: for every entity metadata, the soft-delete-returning column set
equals the update-returning column set (columns with a generation
expression, or flagged update-timestamp, or flagged version-counter) plus
the columns flagged delete-timestamp; in particular every update-returning
column is a soft-delete-returning column. -/
theorem softDeletion_eq_updation_plus_deleteDate (em : QueryExpressionMap) :
    (∀ c, c ∈ getSoftDeletionReturningColumns em ↔
        (c ∈ getUpdationReturningColumns em
          ∨ (c ∈ em.metadata.columns ∧ c.isDeleteDate = true))) ∧
    (∀ c, c ∈ getUpdationReturningColumns em → c ∈ getSoftDeletionReturningColumns em) := by
  constructor
  · intro c
    simp only [getSoftDeletionReturningColumns, getUpdationReturningColumns,
      List.mem_filter, Bool.or_eq_true]
    tauto
  · intro c h
    simp only [getSoftDeletionReturningColumns, getUpdationReturningColumns,
      List.mem_filter, Bool.or_eq_true] at h ⊢
    tauto

/-- Witness for C8: the update-timestamp column is update-returning, and
the theorem places it among the soft-delete-returning columns too. -/
theorem softDeletion_eq_updation_plus_deleteDate_witness :
    exUpdAtCol ∈ getUpdationReturningColumns exEm ∧
    exUpdAtCol ∈ getSoftDeletionReturningColumns exEm :=
  ⟨by decide, (softDeletion_eq_updation_plus_deleteDate exEm).2 exUpdAtCol (by decide)⟩

theorem updateAux_error_of_missing_id (env : Env) (em : QueryExpressionMap)
    (hsup : env.returningSupported "update" = false)
    (hcols : em.extraReturningColumns.isEmpty = false) :
    ∀ (es : List Entity) (i : Nat) (raw : JSVal) (e : Entity),
      e ∈ es → em.metadata.getEntityIdMap e = none →
      updateAux env em es i raw
        = Except.error ⟨"Cannot update entity because entity id is not set in the entity."⟩ := by
  intro es
  induction es with
  | nil => intro i raw e he _; cases he
  | cons e0 rest ih =>
    intro i raw e he hid
    simp only [updateAux, hsup, Bool.false_eq_true, if_false, hcols]
    rcases List.mem_cons.1 he with rfl | hmem
    · simp only [hid]
    · cases hid0 : em.metadata.getEntityIdMap e0 with
      | none => simp only [hid0]
      | some entityId =>
        simp only [hid0]
        cases hq : env.qGetOne (updateQuerySpec em.metadata em.extraReturningColumns entityId) with
        | some loaded => simp only [hq, ih (i + 1) raw e hmem hid]
        | none => simp only [hq, ih (i + 1) raw e hmem hid]

/-- C5: in the update-path reconciler, when inline RETURNING is
unsupported, there is at least one returning-eligible column, and an
entity's primary-key map cannot be computed, the call fails by raising the
identifier-missing error (fatal for the whole call; the failing entity
gets no supplemental read). -/
theorem update_errors_when_id_missing (env : Env) (em : QueryExpressionMap)
    (res : UpdateResult) (entities : List Entity) (e : Entity)
    (hsup : env.returningSupported "update" = false)
    (hcols : em.extraReturningColumns.isEmpty = false)
    (hmem : e ∈ entities)
    (hid : em.metadata.getEntityIdMap e = none) :
    update env em res entities
      = Except.error ⟨"Cannot update entity because entity id is not set in the entity."⟩ := by
  unfold update
  rw [updateAux_error_of_missing_id env em hsup hcols entities 0 res.raw e hmem hid]

/-- Witness for C5: an entity with no id on a backend without inline
RETURNING and one returning-eligible column makes the call fail. -/
theorem update_errors_when_id_missing_witness :
    exEnvBase.returningSupported "update" = false ∧
    exEmExtra.extraReturningColumns.isEmpty = false ∧
    exEmExtra.metadata.getEntityIdMap exEntConflict = none ∧
    update exEnvBase exEmExtra exUpdateRes [exEntConflict]
      = Except.error ⟨"Cannot update entity because entity id is not set in the entity."⟩ :=
  ⟨rfl, rfl, rfl,
    update_errors_when_id_missing exEnvBase exEmExtra exUpdateRes [exEntConflict]
      exEntConflict rfl rfl (List.mem_cons_self _ _) rfl⟩

theorem updateAux_ok_bounds (env : Env) (em : QueryExpressionMap) :
    ∀ (es : List Entity) (i : Nat) (raw : JSVal) (o : UpdateOutcome),
      updateAux env em es i raw = Except.ok o →
      o.generatedMaps.length ≤ es.length ∧ o.entities.length = es.length := by
  intro es
  induction es with
  | nil =>
    intro i raw o h
    simp only [updateAux] at h
    cases h
    exact ⟨Nat.le_refl 0, rfl⟩
  | cons e0 rest ih =>
    intro i raw o h
    simp only [updateAux] at h
    split at h
    · split at h
      · cases hrec : updateAux env em rest (i + 1) (updNormalizeRaw env em raw) with
        | error err => rw [hrec] at h; cases h
        | ok o' =>
          rw [hrec] at h
          cases h
          have hb := ih (i + 1) (updNormalizeRaw env em raw) o' hrec
          exact ⟨Nat.succ_le_succ hb.1, by simp [hb.2]⟩
      · cases hrec : updateAux env em rest (i + 1) (updNormalizeRaw env em raw) with
        | error err => rw [hrec] at h; cases h
        | ok o' =>
          rw [hrec] at h
          cases h
          have hb := ih (i + 1) (updNormalizeRaw env em raw) o' hrec
          exact ⟨Nat.le_succ_of_le hb.1, by simp [hb.2]⟩
    · split at h
      · cases hrec : updateAux env em rest (i + 1) raw with
        | error err => rw [hrec] at h; cases h
        | ok o' =>
          rw [hrec] at h
          cases h
          have hb := ih (i + 1) raw o' hrec
          exact ⟨Nat.le_succ_of_le hb.1, by simp [hb.2]⟩
      · split at h
        · cases h
        · split at h
          · cases hrec : updateAux env em rest (i + 1) raw with
            | error err => rw [hrec] at h; cases h
            | ok o' =>
              rw [hrec] at h
              cases h
              have hb := ih (i + 1) raw o' hrec
              exact ⟨Nat.succ_le_succ hb.1, by simp [hb.2]⟩
          · cases hrec : updateAux env em rest (i + 1) raw with
            | error err => rw [hrec] at h; cases h
            | ok o' =>
              rw [hrec] at h
              cases h
              have hb := ih (i + 1) raw o' hrec
              exact ⟨Nat.le_succ_of_le hb.1, by simp [hb.2]⟩

/-- Counterexample for C4: on a backend without inline RETURNING and with
no extra returning columns, one input entity yields an empty ledger — not
a ledger of length N = 1. -/
theorem update_ledger_shorter_than_input :
    update exEnvBase exEm exUpdateRes [exEnt1]
      = Except.ok { raw := JSVal.undef, entities := [exEnt1], generatedMaps := [],
                    queries := [] }
    ∧ ([exEnt1] : List Entity).length = 1 :=
  ⟨rfl, rfl⟩

/-- C4 amended: the update-path ledger receives at most one entry per
input entity (an entry is appended only when a generated map was produced
or a supplemental row was loaded), so on a fresh update result it has at
most N entries; the entity list itself keeps length N. -/
theorem update_ledger_at_most_n (env : Env) (em : QueryExpressionMap)
    (res : UpdateResult) (entities : List Entity) (o : UpdateOutcome)
    (h : update env em res entities = Except.ok o) :
    o.generatedMaps.length ≤ res.generatedMaps.length + entities.length ∧
    o.entities.length = entities.length := by
  unfold update at h
  cases hrec : updateAux env em entities 0 res.raw with
  | error err => rw [hrec] at h; cases h
  | ok o' =>
    rw [hrec] at h
    cases h
    have hb := updateAux_ok_bounds env em entities 0 res.raw o' hrec
    constructor
    · simp only [List.length_append]
      omega
    · exact hb.2

/-- Witness for C4's amended theorem. -/
theorem update_ledger_at_most_n_witness :
    update exEnvBase exEm exUpdateRes [exEnt1]
      = Except.ok { raw := JSVal.undef, entities := [exEnt1], generatedMaps := [],
                    queries := [] } ∧
    ({ raw := JSVal.undef, entities := [exEnt1], generatedMaps := [],
       queries := [] } : UpdateOutcome).generatedMaps.length
      ≤ exUpdateRes.generatedMaps.length + ([exEnt1] : List Entity).length :=
  ⟨rfl,
    (update_ledger_at_most_n exEnvBase exEm exUpdateRes [exEnt1]
      { raw := JSVal.undef, entities := [exEnt1], generatedMaps := [], queries := [] }
      rfl).1⟩

theorem updNormalizeRaw_idem (env : Env) (em : QueryExpressionMap) (raw : JSVal) :
    updNormalizeRaw env em (updNormalizeRaw env em raw) = updNormalizeRaw env em raw := by
  cases raw with
  | arr items =>
    cases hc : env.driverType = "oracle" && !em.extraReturningColumns.isEmpty with
    | false => simp [updNormalizeRaw, hc]
    | true => simp [updNormalizeRaw, hc]
  | undef => rfl
  | null => rfl
  | num n => rfl
  | str s => rfl
  | obj fields => rfl

theorem updateAux_supported (env : Env) (em : QueryExpressionMap)
    (hsup : env.returningSupported "update" = true) :
    ∀ (es : List Entity) (i : Nat) (raw : JSVal),
      updateAux env em es i raw = Except.ok
        { raw := if es.isEmpty then raw else updNormalizeRaw env em raw,
          entities := updSupportedEntities env em (updNormalizeRaw env em raw) es i,
          generatedMaps := updSupportedLedger env em (updNormalizeRaw env em raw) es i,
          queries := [] } := by
  intro es
  induction es with
  | nil => intro i raw; simp [updateAux, updSupportedEntities, updSupportedLedger]
  | cons e0 rest ih =>
    intro i raw
    simp only [updateAux, hsup, if_true]
    rw [ih (i + 1) (updNormalizeRaw env em raw), updNormalizeRaw_idem]
    cases hg : env.createGeneratedMap em.metadata (rawAt (updNormalizeRaw env em raw) i)
        none none with
    | some m =>
      simp [updSupportedEntities, updSupportedLedger, hg, List.isEmpty_cons, ite_self]
    | none =>
      simp [updSupportedEntities, updSupportedLedger, hg, List.isEmpty_cons, ite_self]

/-- C6 amended: in the update-path reconciler with inline RETURNING
supported, the generated map extracted from the entity's (normalized) raw
result row is merged into the entity and appended to the ledger if and
only if the extraction produced a map — including a produced empty map,
which is merged (as a no-op) and appended; only a null/undefined
extraction is skipped. -/
theorem update_supported_appends_iff_produced (env : Env) (em : QueryExpressionMap)
    (res : UpdateResult) (entities : List Entity)
    (hsup : env.returningSupported "update" = true) :
    update env em res entities = Except.ok
      { raw := if entities.isEmpty then res.raw else updNormalizeRaw env em res.raw,
        entities := updSupportedEntities env em (updNormalizeRaw env em res.raw) entities 0,
        generatedMaps := res.generatedMaps
          ++ updSupportedLedger env em (updNormalizeRaw env em res.raw) entities 0,
        queries := [] } := by
  unfold update
  rw [updateAux_supported env em hsup entities 0 res.raw]

/-- Counterexample for C6: a driver that produces an empty generated map
(`some []`) still gets that empty map appended to the ledger — the source
checks only JavaScript truthiness of the produced map, and `{}` is
truthy. -/
theorem update_appends_empty_generated_map :
    exEnvEmptyMap.createGeneratedMap exEm.metadata JSVal.undef none none = some [] ∧
    update exEnvEmptyMap exEm exUpdateRes [exEnt1]
      = Except.ok { raw := JSVal.undef, entities := [exEnt1], generatedMaps := [[]],
                    queries := [] } :=
  ⟨rfl, rfl⟩

/-- Witness for C6's amended theorem. -/
theorem update_supported_appends_iff_produced_witness :
    exEnvEmptyMap.returningSupported "update" = true ∧
    update exEnvEmptyMap exEm exUpdateRes [exEnt1] = Except.ok
      { raw := if ([exEnt1] : List Entity).isEmpty then exUpdateRes.raw
               else updNormalizeRaw exEnvEmptyMap exEm exUpdateRes.raw,
        entities := updSupportedEntities exEnvEmptyMap exEm
          (updNormalizeRaw exEnvEmptyMap exEm exUpdateRes.raw) [exEnt1] 0,
        generatedMaps := exUpdateRes.generatedMaps
          ++ updSupportedLedger exEnvEmptyMap exEm
            (updNormalizeRaw exEnvEmptyMap exEm exUpdateRes.raw) [exEnt1] 0,
        queries := [] } :=
  ⟨rfl, update_supported_appends_iff_produced exEnvEmptyMap exEm exUpdateRes [exEnt1] rfl⟩

theorem insertGeneratedMaps_getD (env : Env) (em : QueryExpressionMap) (n : Nat) :
    ∀ (es : List Entity) (i : Nat) (raw : JSVal) (j : Nat),
      ((insertGeneratedMaps env em n es i raw).2.2).getD j []
        = mergeInto (es.getD j []) (((insertGeneratedMaps env em n es i raw).2.1).getD j []) := by
  intro es
  induction es with
  | nil => intro i raw j; cases j <;> rfl
  | cons e0 rest ih =>
    intro i raw j
    cases j with
    | zero => simp [insertGeneratedMaps]
    | succ j' =>
      simp only [insertGeneratedMaps, List.getD_cons_succ]
      exact ih _ _ j'

theorem zip_mergeOpt_getD :
    ∀ (a : List Entity) (b : List (Option Entity)) (i : Nat),
      a.length = b.length →
      ((a.zip b).map (fun p => mergeOpt p.1 p.2)).getD i []
        = mergeOpt (a.getD i []) (b.getD i none) := by
  intro a
  induction a with
  | nil =>
    intro b i h
    cases b with
    | nil => cases i <;> rfl
    | cons y ys => simp at h
  | cons x xs ih =>
    intro b i h
    cases b with
    | nil => simp at h
    | cons y ys =>
      cases i with
      | zero => rfl
      | succ i' =>
        simp only [List.zip_cons_cons, List.map_cons, List.getD_cons_succ]
        exact ih ys i' (by simpa using h)

theorem keysOf_mergeOpt_not_mem (gm : Entity) (s : Option Entity) (k : String)
    (h : k ∉ keysOf (mergeOpt gm s)) :
    k ∉ keysOf gm ∧ ∀ x, s = some x → k ∉ keysOf x := by
  cases s with
  | none => exact ⟨h, fun x hx => by cases hx⟩
  | some x =>
    refine ⟨fun hk => h (mem_keysOf_mergeInto_left _ _ _ hk), fun y hy => ?_⟩
    cases hy
    exact fun hk => h (mem_keysOf_mergeInto_right _ _ _ hk)

theorem updateAux_entities_shape (env : Env) (em : QueryExpressionMap) :
    ∀ (es : List Entity) (i : Nat) (raw : JSVal) (o : UpdateOutcome),
      updateAux env em es i raw = Except.ok o →
      ∀ j, o.entities.getD j [] = es.getD j []
        ∨ ∃ g ∈ o.generatedMaps, o.entities.getD j [] = mergeInto (es.getD j []) g := by
  intro es
  induction es with
  | nil =>
    intro i raw o h j
    simp only [updateAux] at h
    cases h
    exact Or.inl (by cases j <;> rfl)
  | cons e0 rest ih =>
    intro i raw o h j
    simp only [updateAux] at h
    split at h
    · split at h
      · cases hrec : updateAux env em rest (i + 1) (updNormalizeRaw env em raw) with
        | error err => rw [hrec] at h; cases h
        | ok o' =>
          rw [hrec] at h
          cases h
          cases j with
          | zero => exact Or.inr ⟨_, List.mem_cons_self _ _, rfl⟩
          | succ j' =>
            rcases ih (i + 1) (updNormalizeRaw env em raw) o' hrec j' with h1 | ⟨g, hg, h2⟩
            · exact Or.inl h1
            · exact Or.inr ⟨g, List.mem_cons_of_mem _ hg, h2⟩
      · cases hrec : updateAux env em rest (i + 1) (updNormalizeRaw env em raw) with
        | error err => rw [hrec] at h; cases h
        | ok o' =>
          rw [hrec] at h
          cases h
          cases j with
          | zero => exact Or.inl rfl
          | succ j' => exact ih (i + 1) (updNormalizeRaw env em raw) o' hrec j'
    · split at h
      · cases hrec : updateAux env em rest (i + 1) raw with
        | error err => rw [hrec] at h; cases h
        | ok o' =>
          rw [hrec] at h
          cases h
          cases j with
          | zero => exact Or.inl rfl
          | succ j' => exact ih (i + 1) raw o' hrec j'
      · split at h
        · cases h
        · split at h
          · cases hrec : updateAux env em rest (i + 1) raw with
            | error err => rw [hrec] at h; cases h
            | ok o' =>
              rw [hrec] at h
              cases h
              cases j with
              | zero => exact Or.inr ⟨_, List.mem_cons_self _ _, rfl⟩
              | succ j' =>
                rcases ih (i + 1) raw o' hrec j' with h1 | ⟨g, hg, h2⟩
                · exact Or.inl h1
                · exact Or.inr ⟨g, List.mem_cons_of_mem _ hg, h2⟩
          · cases hrec : updateAux env em rest (i + 1) raw with
            | error err => rw [hrec] at h; cases h
            | ok o' =>
              rw [hrec] at h
              cases h
              cases j with
              | zero => exact Or.inl rfl
              | succ j' => exact ih (i + 1) raw o' hrec j'

/-- C9: for every entity processed by either reconciler, any entity field
that the caller set before reconciliation and that is addressed by no
ledger entry (which covers the driver generated map, the locally-generated
override and the recovered supplemental-read row for that entity) has the
same value after reconciliation as before; merging never removes or
replaces such fields.  In-place mutation is modelled as positional update
of the entity list. -/
theorem reconcilers_preserve_unaddressed_fields :
    (∀ (env : Env) (em : QueryExpressionMap) (res : InsertResult) (es : List Entity)
        (i : Nat) (k : String),
      res.generatedMaps = [] →
      k ∉ keysOf ((insert env em res es).generatedMaps.getD i []) →
      getField ((insert env em res es).entities.getD i []) k
        = getField (es.getD i []) k) ∧
    (∀ (env : Env) (em : QueryExpressionMap) (res : UpdateResult) (es : List Entity)
        (o : UpdateOutcome) (i : Nat) (k : String),
      update env em res es = Except.ok o →
      (∀ g ∈ o.generatedMaps, k ∉ keysOf g) →
      getField (o.entities.getD i []) k = getField (es.getD i []) k) := by
  constructor
  · intro env em res es i k hg hk
    have h1 := insertGeneratedMaps_length env em es.length es 0 res.raw
    have hgd := insertGeneratedMaps_getD env em es.length es 0 res.raw i
    have hslots := recoverySlots_length env em
      (em.metadata.insertionReturningColumns.filter (fun column =>
        !column.isGenerated || env.returningSupported "insert"))
      (insertGeneratedMaps env em es.length es 0 res.raw).2.2 es.length
    revert hk
    simp only [insert, hg, List.nil_append]
    split
    · intro hk
      dsimp only at hk ⊢
      rw [hgd]
      exact getField_mergeInto_of_not_mem _ _ _ hk
    · intro hk
      dsimp only at hk ⊢
      rw [zip_mergeOpt_getD _ _ i (by rw [h1.2, hslots])]
      rw [zip_mergeOpt_getD _ _ i (by rw [h1.1, hslots])] at hk
      rcases keysOf_mergeOpt_not_mem _ _ _ hk with ⟨hkgm, hks⟩
      rw [getField_mergeOpt_of_not_mem _ _ _ hks, hgd]
      exact getField_mergeInto_of_not_mem _ _ _ hkgm
  · intro env em res es o i k h hks
    unfold update at h
    cases hrec : updateAux env em es 0 res.raw with
    | error err => rw [hrec] at h; cases h
    | ok o' =>
      rw [hrec] at h
      cases h
      rcases updateAux_entities_shape env em es 0 res.raw o' hrec i with h1 | ⟨g, hg, h2⟩
      · rw [h1]
      · rw [h2]
        exact getField_mergeInto_of_not_mem _ _ _
          (hks g (List.mem_append_right _ hg))

theorem assignRowsAux_cons (md : EntityMetadata) (rows : List Entity) (e0 : Entity)
    (rest : List Entity) (i0 ri : Nat) (rr : List (Option Entity)) :
    assignRowsAux md rows (e0 :: rest) i0 ri rr
      = if isKnownId md e0 then
          assignRowsAux md rows rest (i0 + 1) (ri + 1) (rr.set i0 rows[ri]?)
        else assignRowsAux md rows rest (i0 + 1) ri rr := by
  cases hid : md.getEntityIdMap e0 with
  | none => simp [assignRowsAux, isKnownId, hid]
  | some entityId =>
    by_cases h : entityId.all (fun kv => kv.2.isUsable) = true
    · simp [assignRowsAux, isKnownId, hid, h]
    · simp [assignRowsAux, isKnownId, hid, h]

theorem assignRowsAux_preserves_lt (md : EntityMetadata) (rows : List Entity) :
    ∀ (es : List Entity) (i0 ri : Nat) (rr : List (Option Entity)) (j : Nat),
      j < i0 → (assignRowsAux md rows es i0 ri rr)[j]? = rr[j]? := by
  intro es
  induction es with
  | nil => intro i0 ri rr j _; rfl
  | cons e0 rest ih =>
    intro i0 ri rr j h
    rw [assignRowsAux_cons]
    by_cases hk : isKnownId md e0 = true
    · rw [if_pos hk, ih _ _ _ _ (Nat.lt_succ_of_lt h),
        List.getElem?_set_ne (Nat.ne_of_lt h).symm]
    · rw [if_neg hk]
      exact ih _ _ _ _ (Nat.lt_succ_of_lt h)

theorem assignRowsAux_not_known (md : EntityMetadata) (rows : List Entity) :
    ∀ (es : List Entity) (i0 ri : Nat) (rr : List (Option Entity)) (j : Nat),
      isKnownId md (es.getD j []) = false →
      (assignRowsAux md rows es i0 ri rr)[i0 + j]? = rr[i0 + j]? := by
  intro es
  induction es with
  | nil => intro i0 ri rr j _; rfl
  | cons e0 rest ih =>
    intro i0 ri rr j h
    rw [assignRowsAux_cons]
    cases j with
    | zero =>
      rw [List.getD_cons_zero] at h
      rw [if_neg (by simp [h])]
      simp only [Nat.add_zero]
      exact assignRowsAux_preserves_lt md rows rest (i0 + 1) ri rr i0 (Nat.lt_succ_self i0)
    | succ j' =>
      rw [List.getD_cons_succ] at h
      have harith : i0 + (j' + 1) = (i0 + 1) + j' := by omega
      by_cases hk : isKnownId md e0 = true
      · rw [if_pos hk, harith, ih _ _ _ _ h, ← harith,
          List.getElem?_set_ne (by omega : i0 ≠ i0 + (j' + 1))]
      · rw [if_neg hk, harith, ih _ _ _ _ h, ← harith]

theorem assignRowsAux_known (md : EntityMetadata) (rows : List Entity) :
    ∀ (es : List Entity) (i0 ri : Nat) (rr : List (Option Entity)) (j : Nat),
      j < es.length → isKnownId md (es.getD j []) = true →
      rr.length = i0 + es.length →
      (assignRowsAux md rows es i0 ri rr)[i0 + j]?
        = some rows[ri + (es.take j).countP (isKnownId md)]? := by
  intro es
  induction es with
  | nil => intro i0 ri rr j hj; exact absurd hj (Nat.not_lt_zero j)
  | cons e0 rest ih =>
    intro i0 ri rr j hj hk hlen
    rw [assignRowsAux_cons]
    cases j with
    | zero =>
      rw [List.getD_cons_zero] at hk
      rw [if_pos hk]
      simp only [Nat.add_zero, List.take_zero, List.countP_nil]
      rw [assignRowsAux_preserves_lt md rows rest (i0 + 1) (ri + 1) _ i0 (Nat.lt_succ_self i0)]
      exact List.getElem?_set_self (by rw [hlen, List.length_cons]; omega)
    | succ j' =>
      rw [List.getD_cons_succ] at hk
      have hj' : j' < rest.length := by
        simp only [List.length_cons] at hj
        omega
      have harith : i0 + (j' + 1) = (i0 + 1) + j' := by omega
      by_cases hke : isKnownId md e0 = true
      · have hcount : ri + ((e0 :: rest).take (j' + 1)).countP (isKnownId md)
            = (ri + 1) + (rest.take j').countP (isKnownId md) := by
          simp [List.take_succ_cons, List.countP_cons, hke]
          omega
        rw [if_pos hke, harith, hcount]
        exact ih (i0 + 1) (ri + 1) _ j' hj' hk
          (by rw [List.length_set, hlen, List.length_cons]; omega)
      · have hke' : isKnownId md e0 = false := eq_false_of_ne_true hke
        have hcount : ri + ((e0 :: rest).take (j' + 1)).countP (isKnownId md)
            = ri + (rest.take j').countP (isKnownId md) := by
          simp [List.take_succ_cons, List.countP_cons, hke']
        rw [if_neg hke, harith, hcount]
        exact ih (i0 + 1) ri _ j' hj' hk (by rw [hlen, List.length_cons]; omega)

theorem conflictRecoveryAux_cons_empty (env : Env) (md : EntityMetadata)
    (ic cc : List ColumnMetadata) (e0 : Entity) (idx0 : Nat)
    (rest : List (Entity × Nat)) (rr : List (Option Entity))
    (hw : (conflictWhere cc e0).isEmpty = true) :
    conflictRecoveryAux env md ic cc ((e0, idx0) :: rest) rr
      = conflictRecoveryAux env md ic cc rest rr := by
  simp [conflictRecoveryAux, hw]

theorem conflictRecoveryAux_cons_some (env : Env) (md : EntityMetadata)
    (ic cc : List ColumnMetadata) (e0 : Entity) (idx0 : Nat)
    (rest : List (Entity × Nat)) (rr : List (Option Entity)) (r : Entity)
    (hw : (conflictWhere cc e0).isEmpty = false)
    (hq : env.qGetOne (conflictQuerySpec md ic (conflictWhere cc e0)) = some r) :
    conflictRecoveryAux env md ic cc ((e0, idx0) :: rest) rr
      = ((conflictRecoveryAux env md ic cc rest (rr.set idx0 (some r))).1,
          conflictQuerySpec md ic (conflictWhere cc e0)
            :: (conflictRecoveryAux env md ic cc rest (rr.set idx0 (some r))).2) := by
  simp [conflictRecoveryAux, hw, hq]

theorem conflictRecoveryAux_cons_none (env : Env) (md : EntityMetadata)
    (ic cc : List ColumnMetadata) (e0 : Entity) (idx0 : Nat)
    (rest : List (Entity × Nat)) (rr : List (Option Entity))
    (hw : (conflictWhere cc e0).isEmpty = false)
    (hq : env.qGetOne (conflictQuerySpec md ic (conflictWhere cc e0)) = none) :
    conflictRecoveryAux env md ic cc ((e0, idx0) :: rest) rr
      = ((conflictRecoveryAux env md ic cc rest rr).1,
          conflictQuerySpec md ic (conflictWhere cc e0)
            :: (conflictRecoveryAux env md ic cc rest rr).2) := by
  simp [conflictRecoveryAux, hw, hq]

theorem conflictRecoveryAux_queries (env : Env) (md : EntityMetadata)
    (ic cc : List ColumnMetadata) :
    ∀ (cbe : List (Entity × Nat)) (rr : List (Option Entity)),
      (conflictRecoveryAux env md ic cc cbe rr).2
        = cbe.filterMap (fun p =>
            if (conflictWhere cc p.1).isEmpty then none
            else some (conflictQuerySpec md ic (conflictWhere cc p.1))) := by
  intro cbe
  induction cbe with
  | nil => intro rr; rfl
  | cons p rest ih =>
    intro rr
    obtain ⟨e0, idx0⟩ := p
    by_cases hw : (conflictWhere cc e0).isEmpty = true
    · rw [conflictRecoveryAux_cons_empty env md ic cc e0 idx0 rest rr hw, ih]
      simp [List.filterMap_cons, hw]
    · have hw' : (conflictWhere cc e0).isEmpty = false := eq_false_of_ne_true hw
      cases hq : env.qGetOne (conflictQuerySpec md ic (conflictWhere cc e0)) with
      | some r =>
        rw [conflictRecoveryAux_cons_some env md ic cc e0 idx0 rest rr r hw' hq]
        simp [List.filterMap_cons, hw', ih]
      | none =>
        rw [conflictRecoveryAux_cons_none env md ic cc e0 idx0 rest rr hw' hq]
        simp [List.filterMap_cons, hw', ih]

theorem conflictRecoveryAux_slot_not_mem (env : Env) (md : EntityMetadata)
    (ic cc : List ColumnMetadata) :
    ∀ (cbe : List (Entity × Nat)) (rr : List (Option Entity)) (idx : Nat),
      (∀ p ∈ cbe, p.2 ≠ idx) →
      (conflictRecoveryAux env md ic cc cbe rr).1[idx]? = rr[idx]? := by
  intro cbe
  induction cbe with
  | nil => intro rr idx _; rfl
  | cons p rest ih =>
    intro rr idx hne
    obtain ⟨e0, idx0⟩ := p
    have hne0 : idx0 ≠ idx := hne (e0, idx0) (List.mem_cons_self _ _)
    have hnerest : ∀ p ∈ rest, p.2 ≠ idx := fun p hp => hne p (List.mem_cons_of_mem _ hp)
    by_cases hw : (conflictWhere cc e0).isEmpty = true
    · rw [conflictRecoveryAux_cons_empty env md ic cc e0 idx0 rest rr hw]
      exact ih rr idx hnerest
    · have hw' : (conflictWhere cc e0).isEmpty = false := eq_false_of_ne_true hw
      cases hq : env.qGetOne (conflictQuerySpec md ic (conflictWhere cc e0)) with
      | some r =>
        rw [conflictRecoveryAux_cons_some env md ic cc e0 idx0 rest rr r hw' hq]
        dsimp only
        rw [ih _ idx hnerest, List.getElem?_set_ne hne0]
      | none =>
        rw [conflictRecoveryAux_cons_none env md ic cc e0 idx0 rest rr hw' hq]
        dsimp only
        exact ih rr idx hnerest

theorem conflictRecoveryAux_slot (env : Env) (md : EntityMetadata)
    (ic cc : List ColumnMetadata) :
    ∀ (cbe : List (Entity × Nat)) (rr : List (Option Entity)) (e : Entity) (idx : Nat),
      (e, idx) ∈ cbe →
      List.Pairwise (fun a b => a.2 < b.2) cbe →
      idx < rr.length →
      rr[idx]? = some none →
      (conflictRecoveryAux env md ic cc cbe rr).1[idx]?
        = some (if (conflictWhere cc e).isEmpty then none
            else env.qGetOne (conflictQuerySpec md ic (conflictWhere cc e))) := by
  intro cbe
  induction cbe with
  | nil => intro rr e idx hmem; cases hmem
  | cons p rest ih =>
    intro rr e idx hmem hpw hlt hslot
    obtain ⟨e0, idx0⟩ := p
    rcases List.mem_cons.1 hmem with heq | hmem'
    · cases heq
      have hrest_ne : ∀ q ∈ rest, q.2 ≠ idx := fun q hq =>
        Ne.symm (Nat.ne_of_lt ((List.pairwise_cons.1 hpw).1 q hq))
      by_cases hw : (conflictWhere cc e).isEmpty = true
      · rw [conflictRecoveryAux_cons_empty env md ic cc e idx rest rr hw,
          conflictRecoveryAux_slot_not_mem env md ic cc rest rr idx hrest_ne, hslot]
        simp [hw]
      · have hw' : (conflictWhere cc e).isEmpty = false := eq_false_of_ne_true hw
        cases hq : env.qGetOne (conflictQuerySpec md ic (conflictWhere cc e)) with
        | some r =>
          rw [conflictRecoveryAux_cons_some env md ic cc e idx rest rr r hw' hq]
          dsimp only
          rw [conflictRecoveryAux_slot_not_mem env md ic cc rest _ idx hrest_ne,
            List.getElem?_set_self hlt]
          simp [hw', hq]
        | none =>
          rw [conflictRecoveryAux_cons_none env md ic cc e idx rest rr hw' hq]
          dsimp only
          rw [conflictRecoveryAux_slot_not_mem env md ic cc rest rr idx hrest_ne, hslot]
          simp [hw', hq]
    · have hpw' := (List.pairwise_cons.1 hpw).2
      have hgt : idx0 < idx := (List.pairwise_cons.1 hpw).1 (e, idx) hmem'
      by_cases hw : (conflictWhere cc e0).isEmpty = true
      · rw [conflictRecoveryAux_cons_empty env md ic cc e0 idx0 rest rr hw]
        exact ih rr e idx hmem' hpw' hlt hslot
      · have hw' : (conflictWhere cc e0).isEmpty = false := eq_false_of_ne_true hw
        cases hq : env.qGetOne (conflictQuerySpec md ic (conflictWhere cc e0)) with
        | some r =>
          rw [conflictRecoveryAux_cons_some env md ic cc e0 idx0 rest rr r hw' hq]
          dsimp only
          refine ih _ e idx hmem' hpw' ?_ ?_
          · rw [List.length_set]
            exact hlt
          · rw [List.getElem?_set_ne (Nat.ne_of_lt hgt)]
            exact hslot
        | none =>
          rw [conflictRecoveryAux_cons_none env md ic cc e0 idx0 rest rr hw' hq]
          dsimp only
          exact ih rr e idx hmem' hpw' hlt hslot

theorem partitionByEntityId_cbe_mem (md : EntityMetadata) :
    ∀ (es : List Entity) (i0 : Nat) (p : Entity × Nat),
      p ∈ (partitionByEntityId md es i0).2 →
      i0 ≤ p.2 ∧ p.2 < i0 + es.length ∧ es.getD (p.2 - i0) [] = p.1
        ∧ md.getEntityIdMap p.1 = none := by
  intro es
  induction es with
  | nil =>
    intro i0 p hp
    simp [partitionByEntityId] at hp
  | cons e0 rest ih =>
    intro i0 p hp
    simp only [partitionByEntityId] at hp
    cases hid : md.getEntityIdMap e0 with
    | some entityId =>
      rw [hid] at hp
      dsimp only at hp
      obtain ⟨h1, h2, h3, h4⟩ := ih (i0 + 1) p hp
      refine ⟨Nat.le_of_succ_le h1, ?_, ?_, h4⟩
      · simp only [List.length_cons]
        omega
      · have harith : p.2 - i0 = (p.2 - (i0 + 1)) + 1 := by omega
        rw [harith, List.getD_cons_succ]
        exact h3
    | none =>
      rw [hid] at hp
      dsimp only at hp
      rcases List.mem_cons.1 hp with heq | hp'
      · cases heq
        refine ⟨Nat.le_refl _, ?_, ?_, hid⟩
        · simp only [List.length_cons]
          omega
        · simp
      · obtain ⟨h1, h2, h3, h4⟩ := ih (i0 + 1) p hp'
        refine ⟨Nat.le_of_succ_le h1, ?_, ?_, h4⟩
        · simp only [List.length_cons]
          omega
        · have harith : p.2 - i0 = (p.2 - (i0 + 1)) + 1 := by omega
          rw [harith, List.getD_cons_succ]
          exact h3

theorem partitionByEntityId_cbe_pairwise (md : EntityMetadata) :
    ∀ (es : List Entity) (i0 : Nat),
      List.Pairwise (fun a b => a.2 < b.2) (partitionByEntityId md es i0).2 := by
  intro es
  induction es with
  | nil => intro i0; simp [partitionByEntityId]
  | cons e0 rest ih =>
    intro i0
    simp only [partitionByEntityId]
    cases hid : md.getEntityIdMap e0 with
    | some entityId =>
      dsimp only
      exact ih (i0 + 1)
    | none =>
      dsimp only
      refine List.pairwise_cons.2 ⟨?_, ih (i0 + 1)⟩
      intro q hq
      have h1 := (partitionByEntityId_cbe_mem md rest (i0 + 1) q hq).1
      omega

/-- Witness for C9: the caller-set `value` field of an upsert-shaped
entity survives reconciliation untouched on both paths. -/
theorem reconcilers_preserve_unaddressed_fields_witness :
    exInsertRes.generatedMaps = [] ∧
    ("value" ∉ keysOf ((insert exEnvBase exEm exInsertRes [exEntConflict]).generatedMaps.getD 0 [])) ∧
    getField ((insert exEnvBase exEm exInsertRes [exEntConflict]).entities.getD 0 []) "value"
      = getField (([exEntConflict] : List Entity).getD 0 []) "value" ∧
    update exEnvBase exEm exUpdateRes [exEnt1]
      = Except.ok { raw := JSVal.undef, entities := [exEnt1], generatedMaps := [],
                    queries := [] } ∧
    getField (({ raw := JSVal.undef, entities := [exEnt1], generatedMaps := [],
                 queries := [] } : UpdateOutcome).entities.getD 0 []) "id"
      = getField (([exEnt1] : List Entity).getD 0 []) "id" :=
  ⟨rfl, by decide,
    (reconcilers_preserve_unaddressed_fields).1 exEnvBase exEm exInsertRes
      [exEntConflict] 0 "value" rfl (by decide),
    rfl,
    (reconcilers_preserve_unaddressed_fields).2 exEnvBase exEm exUpdateRes [exEnt1]
      { raw := JSVal.undef, entities := [exEnt1], generatedMaps := [], queries := [] }
      0 "id" rfl (fun g hg => absurd hg (List.not_mem_nil g))⟩

theorem recoverySlots_no_conflict (env : Env) (em : QueryExpressionMap)
    (IC : List ColumnMetadata) (ents : List Entity) (n : Nat)
    (hcc : getConflictColumns em = []) :
    recoverySlots env em IC ents n
      = if !IC.isEmpty && !(partitionByEntityId em.metadata ents 0).1.isEmpty then
          (assignRowsAux em.metadata
            (env.qGetMany (batchQuerySpec em.metadata IC
              (partitionByEntityId em.metadata ents 0).1))
            ents 0 0 (List.replicate n none),
           [batchQuerySpec em.metadata IC (partitionByEntityId em.metadata ents 0).1])
        else (List.replicate n none, []) := by
  simp only [recoverySlots, conflictSlots]
  cases hcbe : (partitionByEntityId em.metadata ents 0).2.isEmpty <;>
    cases hguard : !IC.isEmpty && !(partitionByEntityId em.metadata ents 0).1.isEmpty <;>
    simp [hcbe, hguard, hcc]

/-- C10: on a backend without inline RETURNING and with no upsert conflict
target configured, the conflict-column resolver returns the empty set, so
an entity without a computable primary-key map gets no supplemental
recovery query at all (every query issued, if any, is the batched
known-id read); the call still completes, its recovery slot stays empty,
and the identifier entry pushed for it is null rather than a partial
mapping. -/
theorem insert_no_conflict_target_unresolved (env : Env) (em : QueryExpressionMap)
    (res : InsertResult) (es : List Entity) (i : Nat)
    (hsup : env.returningSupported "insert" = false)
    (hconf : em.onUpdateConflict = none)
    (hi : res.identifiers = [])
    (hlt : i < es.length)
    (hnone : em.metadata.getEntityIdMap ((phase1Entities env em res es).getD i []) = none) :
    ((insert env em res es).queries.all (fun q => q.many)) = true ∧
    (insert env em res es).returningResult[i]? = some none ∧
    (insert env em res es).identifiers[i]? = some none := by
  have hcc : getConflictColumns em = [] := by simp [getConflictColumns, hconf]
  have hph1len : (phase1Entities env em res es).length = es.length :=
    (insertGeneratedMaps_length env em es.length es 0 res.raw).2
  have hknown : isKnownId em.metadata ((phase1Entities env em res es).getD i []) = false := by
    simp only [isKnownId]
    rw [hnone]
  simp only [phase1Entities] at hph1len hknown hnone
  have hident : ∀ (rr : List (Option Entity)), rr.length = es.length → rr[i]? = some none →
      (List.map (fun e => em.metadata.getEntityIdMap e)
        (List.map (fun p => mergeOpt p.1 p.2)
          ((insertGeneratedMaps env em es.length es 0 res.raw).2.2.zip rr)))[i]?
        = some none := by
    intro rr hrlen hrslot
    have hmlen : (((insertGeneratedMaps env em es.length es 0 res.raw).2.2.zip rr).map
        (fun p => mergeOpt p.1 p.2)).length = es.length := by
      rw [List.length_map, List.length_zip, hph1len, hrlen, min_self]
    have hilt : i < (((insertGeneratedMaps env em es.length es 0 res.raw).2.2.zip rr).map
        (fun p => mergeOpt p.1 p.2)).length := by
      rw [hmlen]
      exact hlt
    have hgd := zip_mergeOpt_getD
      (insertGeneratedMaps env em es.length es 0 res.raw).2.2 rr i
      (by rw [hph1len, hrlen])
    rw [List.getD_eq_getElem?_getD rr i none, hrslot] at hgd
    rw [List.getElem?_map, List.getElem?_eq_getElem hilt, Option.map_some',
      ← List.getD_eq_getElem _ [] hilt, hgd]
    simp only [Option.getD_some, mergeOpt]
    rw [hnone]
  simp only [insert, hi, List.nil_append]
  split
  · next hsupT => simp [hsup] at hsupT
  · rw [recoverySlots_no_conflict env em _ _ es.length hcc]
    have hslot :
        ∀ (rows : List Entity),
          (assignRowsAux em.metadata rows
            (insertGeneratedMaps env em es.length es 0 res.raw).2.2 0 0
            (List.replicate es.length none))[i]? = some none := by
      intro rows
      have h0 := assignRowsAux_not_known em.metadata rows
        (insertGeneratedMaps env em es.length es 0 res.raw).2.2 0 0
        (List.replicate es.length none) i hknown
      rw [Nat.zero_add] at h0
      rw [h0, List.getElem?_replicate, if_pos hlt]
    have hrep : (List.replicate es.length (none : Option Entity))[i]? = some none := by
      rw [List.getElem?_replicate, if_pos hlt]
    cases hguard : !(em.metadata.insertionReturningColumns.filter (fun column =>
          !column.isGenerated || env.returningSupported "insert")).isEmpty
        && !(partitionByEntityId em.metadata
          (insertGeneratedMaps env em es.length es 0 res.raw).2.2 0).1.isEmpty with
    | true =>
      simp only [eq_self_iff_true, if_true]
      refine ⟨rfl, hslot _, ?_⟩
      exact hident _ (by rw [assignRowsAux_length, List.length_replicate]) (hslot _)
    | false =>
      simp only [Bool.false_eq_true, if_false]
      refine ⟨rfl, hrep, ?_⟩
      exact hident _ (List.length_replicate _ _) hrep

/-- Witness for C10: an upsert-shaped entity with no id, no conflict
target configured — no recovery read, identifier entry comes back null. -/
theorem insert_no_conflict_target_unresolved_witness :
    exEnvBase.returningSupported "insert" = false ∧
    exEmNoConflict.metadata.getEntityIdMap
      ((phase1Entities exEnvBase exEmNoConflict exInsertRes [exEntConflict]).getD 0 [])
        = none ∧
    ((insert exEnvBase exEmNoConflict exInsertRes [exEntConflict]).queries.all
      (fun q => q.many)) = true ∧
    (insert exEnvBase exEmNoConflict exInsertRes [exEntConflict]).identifiers[0]?
      = some none :=
  ⟨rfl, rfl,
    (insert_no_conflict_target_unresolved exEnvBase exEmNoConflict exInsertRes
      [exEntConflict] 0 rfl rfl rfl (by decide) rfl).1,
    (insert_no_conflict_target_unresolved exEnvBase exEmNoConflict exInsertRes
      [exEntConflict] 0 rfl rfl rfl (by decide) rfl).2.2⟩

theorem length_filterMap_ite {α β : Type} (c : α → Bool) (f : α → β) :
    ∀ l : List α,
      (l.filterMap (fun x => if c x then none else some (f x))).length
        = (l.filter (fun x => !c x)).length := by
  intro l
  induction l with
  | nil => rfl
  | cons x rest ih =>
    cases hc : c x <;> simp [List.filterMap_cons, List.filter_cons, hc, ih]

theorem recoverySlots_no_cbe (env : Env) (em : QueryExpressionMap)
    (IC : List ColumnMetadata) (ents : List Entity) (n : Nat)
    (hcbe : (partitionByEntityId em.metadata ents 0).2.isEmpty = true) :
    recoverySlots env em IC ents n
      = if !IC.isEmpty && !(partitionByEntityId em.metadata ents 0).1.isEmpty then
          (assignRowsAux em.metadata
            (env.qGetMany (batchQuerySpec em.metadata IC
              (partitionByEntityId em.metadata ents 0).1))
            ents 0 0 (List.replicate n none),
           [batchQuerySpec em.metadata IC (partitionByEntityId em.metadata ents 0).1])
        else (List.replicate n none, []) := by
  simp only [recoverySlots, conflictSlots, hcbe]
  cases hguard : !IC.isEmpty && !(partitionByEntityId em.metadata ents 0).1.isEmpty <;>
    simp [hguard]

theorem recoverySlots_with_conflict (env : Env) (em : QueryExpressionMap)
    (IC : List ColumnMetadata) (ents : List Entity) (n : Nat)
    (hcbe : (partitionByEntityId em.metadata ents 0).2.isEmpty = false)
    (hcc : (getConflictColumns em).isEmpty = false) :
    recoverySlots env em IC ents n
      = if !IC.isEmpty && !(partitionByEntityId em.metadata ents 0).1.isEmpty then
          (assignRowsAux em.metadata
            (env.qGetMany (batchQuerySpec em.metadata IC
              (partitionByEntityId em.metadata ents 0).1)) ents 0 0
            (conflictRecoveryAux env em.metadata IC (getConflictColumns em)
              (partitionByEntityId em.metadata ents 0).2 (List.replicate n none)).1,
           (conflictRecoveryAux env em.metadata IC (getConflictColumns em)
             (partitionByEntityId em.metadata ents 0).2 (List.replicate n none)).2
             ++ [batchQuerySpec em.metadata IC (partitionByEntityId em.metadata ents 0).1])
        else
          ((conflictRecoveryAux env em.metadata IC (getConflictColumns em)
             (partitionByEntityId em.metadata ents 0).2 (List.replicate n none)).1,
           (conflictRecoveryAux env em.metadata IC (getConflictColumns em)
             (partitionByEntityId em.metadata ents 0).2 (List.replicate n none)).2) := by
  simp only [recoverySlots]
  cases hguard : !IC.isEmpty && !(partitionByEntityId em.metadata ents 0).1.isEmpty <;>
    simp [conflictSlots, hcbe, hcc, hguard]

/-- C3: with inline RETURNING unsupported and a non-empty conflict-column
set configured, every conflict-based entity with at least one usable
conflict-column value gets exactly one supplemental `getOne` read filtered
by its equality condition, whose result (if any) is recorded at the
entity's original position; an entity with no usable conflict-column value
gets no read and is left unresolved; the number of single-row reads equals
the number of conflict-based entities with a usable value, and the call is
total (no error raised at this layer). -/
theorem insert_conflict_recovery (env : Env) (em : QueryExpressionMap)
    (res : InsertResult) (es : List Entity)
    (hsup : env.returningSupported "insert" = false)
    (hcc : (getConflictColumns em).isEmpty = false) :
    ((insert env em res es).queries.filter (fun q => !q.many)).length
      = ((conflictEntitiesOf env em res es).filter
          (fun p => !(conflictWhere (getConflictColumns em) p.1).isEmpty)).length ∧
    ∀ (j : Nat) (e : Entity) (idx : Nat),
      (conflictEntitiesOf env em res es)[j]? = some (e, idx) →
      ((conflictWhere (getConflictColumns em) e).isEmpty = false →
        (insert env em res es).returningResult[idx]?
          = some (env.qGetOne (conflictQuerySpec em.metadata
              (insertionColumnsOf env em) (conflictWhere (getConflictColumns em) e)))) ∧
      ((conflictWhere (getConflictColumns em) e).isEmpty = true →
        (insert env em res es).returningResult[idx]? = some none) := by
  have hph1len : (phase1Entities env em res es).length = es.length :=
    (insertGeneratedMaps_length env em es.length es 0 res.raw).2
  simp only [conflictEntitiesOf, phase1Entities, insertionColumnsOf] at hph1len ⊢
  simp only [insert]
  split
  · next hsupT => simp [hsup] at hsupT
  · cases hcbe : (partitionByEntityId em.metadata
        (insertGeneratedMaps env em es.length es 0 res.raw).2.2 0).2.isEmpty with
    | true =>
      have hnil := List.isEmpty_iff.1 hcbe
      rw [recoverySlots_no_cbe env em _ _ es.length hcbe]
      constructor
      · rw [hnil]
        cases hguard : !(em.metadata.insertionReturningColumns.filter (fun column =>
              !column.isGenerated || env.returningSupported "insert")).isEmpty
            && !(partitionByEntityId em.metadata
              (insertGeneratedMaps env em es.length es 0 res.raw).2.2 0).1.isEmpty <;>
          simp [batchQuerySpec]
      · intro j e idx hj
        rw [hnil] at hj
        simp at hj
    | false =>
      rw [recoverySlots_with_conflict env em _ _ es.length hcbe hcc]
      have hpw := partitionByEntityId_cbe_pairwise em.metadata
        (insertGeneratedMaps env em es.length es 0 res.raw).2.2 0
      have hqall : ∀ q ∈ (conflictRecoveryAux env em.metadata
          (em.metadata.insertionReturningColumns.filter (fun column =>
            !column.isGenerated || env.returningSupported "insert"))
          (getConflictColumns em)
          (partitionByEntityId em.metadata
            (insertGeneratedMaps env em es.length es 0 res.raw).2.2 0).2
          (List.replicate es.length none)).2, (!q.many) = true := by
        intro q hq
        rw [conflictRecoveryAux_queries] at hq
        rcases List.mem_filterMap.1 hq with ⟨p, _, hpq⟩
        by_cases hw : (conflictWhere (getConflictColumns em) p.1).isEmpty = true
        · rw [if_pos hw] at hpq
          cases hpq
        · rw [if_neg hw] at hpq
          cases hpq
          rfl
      have hqlen : ((conflictRecoveryAux env em.metadata
          (em.metadata.insertionReturningColumns.filter (fun column =>
            !column.isGenerated || env.returningSupported "insert"))
          (getConflictColumns em)
          (partitionByEntityId em.metadata
            (insertGeneratedMaps env em es.length es 0 res.raw).2.2 0).2
          (List.replicate es.length none)).2).length
          = ((partitionByEntityId em.metadata
              (insertGeneratedMaps env em es.length es 0 res.raw).2.2 0).2.filter
              (fun p => !(conflictWhere (getConflictColumns em) p.1).isEmpty)).length := by
        rw [conflictRecoveryAux_queries]
        exact length_filterMap_ite _ _ _
      have hslotmain : ∀ (j : Nat) (e : Entity) (idx : Nat),
          (partitionByEntityId em.metadata
            (insertGeneratedMaps env em es.length es 0 res.raw).2.2 0).2[j]? = some (e, idx) →
          ∀ (rows : List Entity),
            (assignRowsAux em.metadata rows
              (insertGeneratedMaps env em es.length es 0 res.raw).2.2 0 0
              (conflictRecoveryAux env em.metadata
                (em.metadata.insertionReturningColumns.filter (fun column =>
                  !column.isGenerated || env.returningSupported "insert"))
                (getConflictColumns em)
                (partitionByEntityId em.metadata
                  (insertGeneratedMaps env em es.length es 0 res.raw).2.2 0).2
                (List.replicate es.length none)).1)[idx]?
            = some (if (conflictWhere (getConflictColumns em) e).isEmpty then none
                else env.qGetOne (conflictQuerySpec em.metadata
                  (em.metadata.insertionReturningColumns.filter (fun column =>
                    !column.isGenerated || env.returningSupported "insert"))
                  (conflictWhere (getConflictColumns em) e))) := by
        intro j e idx hj rows
        have hmem := List.getElem?_mem hj
        obtain ⟨_, hidxlt, hgetd, hidnone⟩ :=
          partitionByEntityId_cbe_mem em.metadata
            (insertGeneratedMaps env em es.length es 0 res.raw).2.2 0 (e, idx) hmem
        rw [Nat.zero_add] at hidxlt
        rw [Nat.sub_zero] at hgetd
        have hknown : isKnownId em.metadata
            ((insertGeneratedMaps env em es.length es 0 res.raw).2.2.getD idx []) = false := by
          simp only [isKnownId, hgetd]
          rw [hidnone]
        have h0 := assignRowsAux_not_known em.metadata rows
          (insertGeneratedMaps env em es.length es 0 res.raw).2.2 0 0
          (conflictRecoveryAux env em.metadata
            (em.metadata.insertionReturningColumns.filter (fun column =>
              !column.isGenerated || env.returningSupported "insert"))
            (getConflictColumns em)
            (partitionByEntityId em.metadata
              (insertGeneratedMaps env em es.length es 0 res.raw).2.2 0).2
            (List.replicate es.length none)).1 idx hknown
        rw [Nat.zero_add] at h0
        rw [h0]
        exact conflictRecoveryAux_slot env em.metadata _ _ _ _ e idx hmem hpw
          (by rw [List.length_replicate, ← hph1len]; exact hidxlt)
          (by rw [List.getElem?_replicate, if_pos (by rw [← hph1len]; exact hidxlt)])
      have hslotelse : ∀ (j : Nat) (e : Entity) (idx : Nat),
          (partitionByEntityId em.metadata
            (insertGeneratedMaps env em es.length es 0 res.raw).2.2 0).2[j]? = some (e, idx) →
          (conflictRecoveryAux env em.metadata
            (em.metadata.insertionReturningColumns.filter (fun column =>
              !column.isGenerated || env.returningSupported "insert"))
            (getConflictColumns em)
            (partitionByEntityId em.metadata
              (insertGeneratedMaps env em es.length es 0 res.raw).2.2 0).2
            (List.replicate es.length none)).1[idx]?
          = some (if (conflictWhere (getConflictColumns em) e).isEmpty then none
              else env.qGetOne (conflictQuerySpec em.metadata
                (em.metadata.insertionReturningColumns.filter (fun column =>
                  !column.isGenerated || env.returningSupported "insert"))
                (conflictWhere (getConflictColumns em) e))) := by
        intro j e idx hj
        have hmem := List.getElem?_mem hj
        obtain ⟨_, hidxlt, _, _⟩ :=
          partitionByEntityId_cbe_mem em.metadata
            (insertGeneratedMaps env em es.length es 0 res.raw).2.2 0 (e, idx) hmem
        rw [Nat.zero_add] at hidxlt
        exact conflictRecoveryAux_slot env em.metadata _ _ _ _ e idx hmem hpw
          (by rw [List.length_replicate, ← hph1len]; exact hidxlt)
          (by rw [List.getElem?_replicate, if_pos (by rw [← hph1len]; exact hidxlt)])
      cases hguard : !(em.metadata.insertionReturningColumns.filter (fun column =>
            !column.isGenerated || env.returningSupported "insert")).isEmpty
          && !(partitionByEntityId em.metadata
            (insertGeneratedMaps env em es.length es 0 res.raw).2.2 0).1.isEmpty with
      | true =>
        simp only [eq_self_iff_true, if_true]
        constructor
        · rw [List.filter_append, List.filter_eq_self.mpr hqall]
          simp [batchQuerySpec, hqlen]
        · intro j e idx hj
          constructor
          · intro hwe
            rw [hslotmain j e idx hj _, if_neg (by rw [hwe]; exact Bool.false_ne_true)]
          · intro hwe
            rw [hslotmain j e idx hj _, if_pos hwe]
      | false =>
        simp only [Bool.false_eq_true, if_false]
        constructor
        · rw [List.filter_eq_self.mpr hqall]
          exact hqlen
        · intro j e idx hj
          constructor
          · intro hwe
            rw [hslotelse j e idx hj, if_neg (by rw [hwe]; exact Bool.false_ne_true)]
          · intro hwe
            rw [hslotelse j e idx hj, if_pos hwe]

/-- Witness for C3: an upsert-shaped entity with usable conflict values
gets one conflict read whose row lands at its position. -/
theorem insert_conflict_recovery_witness :
    exEnvConflict.returningSupported "insert" = false ∧
    (getConflictColumns exEm).isEmpty = false ∧
    (conflictEntitiesOf exEnvConflict exEm exInsertRes [exEntConflict])[0]?
      = some (exEntConflict, 0) ∧
    (conflictWhere (getConflictColumns exEm) exEntConflict).isEmpty = false ∧
    (insert exEnvConflict exEm exInsertRes [exEntConflict]).returningResult[0]?
      = some (exEnvConflict.qGetOne (conflictQuerySpec exEm.metadata
          (insertionColumnsOf exEnvConflict exEm)
          (conflictWhere (getConflictColumns exEm) exEntConflict))) :=
  ⟨rfl, rfl, rfl, rfl,
    ((insert_conflict_recovery exEnvConflict exEm exInsertRes [exEntConflict]
      rfl rfl).2 0 exEntConflict 0 rfl).1 rfl⟩

theorem recoverySlots_guard_true (env : Env) (em : QueryExpressionMap)
    (IC : List ColumnMetadata) (ents : List Entity) (n : Nat)
    (hguard : (!IC.isEmpty && !(partitionByEntityId em.metadata ents 0).1.isEmpty) = true) :
    recoverySlots env em IC ents n
      = (assignRowsAux em.metadata
          (env.qGetMany (batchQuerySpec em.metadata IC
            (partitionByEntityId em.metadata ents 0).1))
          ents 0 0 (conflictSlots env em IC ents n).1,
         (conflictSlots env em IC ents n).2
           ++ [batchQuerySpec em.metadata IC (partitionByEntityId em.metadata ents 0).1]) := by
  simp [recoverySlots, hguard]

theorem conflictSlots_queries_not_many (env : Env) (em : QueryExpressionMap)
    (IC : List ColumnMetadata) (ents : List Entity) (n : Nat) :
    ∀ q ∈ (conflictSlots env em IC ents n).2, q.many = false := by
  intro q hq
  simp only [conflictSlots] at hq
  split at hq
  · simp at hq
  · split at hq
    · simp at hq
    · rw [conflictRecoveryAux_queries] at hq
      rcases List.mem_filterMap.1 hq with ⟨p, _, hpq⟩
      by_cases hw : (conflictWhere (getConflictColumns em) p.1).isEmpty = true
      · rw [if_pos hw] at hpq
        cases hpq
      · rw [if_neg hw] at hpq
        cases hpq
        rfl

/-- Counterexample for C2: two entities with ids 1 and 2; the batched read
returns their rows in reversed order; the reconciler merges the id-2 row
into the entity at position 0 (whose input id was 1).  Rows are assigned
by raw result order, not by re-deriving and matching identifiers, so the
final per-entity values are wrong when the batched read reorders. -/
theorem insert_batched_rows_by_result_order_cex :
    ([exEnt1, exEnt2] : List Entity) = [[("id", JSVal.num 1)], [("id", JSVal.num 2)]] ∧
    exEnvReorder.qGetMany (batchQuerySpec exEm.metadata [exUpdAtCol]
        [[("id", JSVal.num 1)], [("id", JSVal.num 2)]])
      = [[("id", JSVal.num 2), ("updatedAt", JSVal.str "u2")],
         [("id", JSVal.num 1), ("updatedAt", JSVal.str "u1")]] ∧
    (insert exEnvReorder exEm exInsertRes [exEnt1, exEnt2]).entities
      = [[("id", JSVal.num 2), ("updatedAt", JSVal.str "u2")],
         [("id", JSVal.num 1), ("updatedAt", JSVal.str "u1")]] :=
  ⟨rfl, rfl, rfl⟩

/-- C2 amended: when inline RETURNING is unsupported and there are
known-id entities with returning-columns to fetch, exactly one batched
supplemental read is issued, filtered by the set of all known-id
identifiers; but each returned row is mapped back by raw result order —
the j-th known-id entity (in input order) receives the j-th row of the
batched result — with re-derived identifiers deciding only which
positions receive a row, so the final per-entity values are correct only
when the batched read returns rows in the order of the identifier
filter. -/
theorem insert_batched_read_once_result_order (env : Env) (em : QueryExpressionMap)
    (res : InsertResult) (es : List Entity)
    (hsup : env.returningSupported "insert" = false)
    (heff : (insertionColumnsOf env em).isEmpty = false)
    (hids : (entityIdsOf env em res es).isEmpty = false) :
    (insert env em res es).queries.filter (fun q => q.many)
      = [batchQuerySpec em.metadata (insertionColumnsOf env em)
          (entityIdsOf env em res es)] ∧
    ∀ j : Nat, j < (phase1Entities env em res es).length →
      isKnownId em.metadata ((phase1Entities env em res es).getD j []) = true →
      (insert env em res es).returningResult[j]?
        = some ((env.qGetMany (batchQuerySpec em.metadata (insertionColumnsOf env em)
            (entityIdsOf env em res es)))[((phase1Entities env em res es).take j).countP
              (isKnownId em.metadata)]?) := by
  have hph1len : (phase1Entities env em res es).length = es.length :=
    (insertGeneratedMaps_length env em es.length es 0 res.raw).2
  simp only [phase1Entities, insertionColumnsOf, entityIdsOf] at heff hids hph1len ⊢
  simp only [insert]
  split
  · next hsupT => simp [hsup] at hsupT
  · have hguard : (!(em.metadata.insertionReturningColumns.filter (fun column =>
          !column.isGenerated || env.returningSupported "insert")).isEmpty
        && !(partitionByEntityId em.metadata
          (insertGeneratedMaps env em es.length es 0 res.raw).2.2 0).1.isEmpty) = true := by
      rw [heff, hids]
      rfl
    rw [recoverySlots_guard_true env em _ _ es.length hguard]
    constructor
    · rw [List.filter_append]
      have h1 : ((conflictSlots env em
          (em.metadata.insertionReturningColumns.filter (fun column =>
            !column.isGenerated || env.returningSupported "insert"))
          (insertGeneratedMaps env em es.length es 0 res.raw).2.2 es.length).2.filter
            (fun q => q.many)) = [] := by
        rw [List.filter_eq_nil_iff]
        intro q hq
        simp [conflictSlots_queries_not_many env em _ _ es.length q hq]
      rw [h1, List.nil_append]
      rfl
    · intro j hjlt hknown
      have h := assignRowsAux_known em.metadata
        (env.qGetMany (batchQuerySpec em.metadata
          (em.metadata.insertionReturningColumns.filter (fun column =>
            !column.isGenerated || env.returningSupported "insert"))
          (partitionByEntityId em.metadata
            (insertGeneratedMaps env em es.length es 0 res.raw).2.2 0).1))
        (insertGeneratedMaps env em es.length es 0 res.raw).2.2 0 0
        (conflictSlots env em
          (em.metadata.insertionReturningColumns.filter (fun column =>
            !column.isGenerated || env.returningSupported "insert"))
          (insertGeneratedMaps env em es.length es 0 res.raw).2.2 es.length).1
        j hjlt hknown
        (by rw [conflictSlots_length, Nat.zero_add, hph1len])
      simp only [Nat.zero_add] at h
      exact h

/-- Witness for C2's amended theorem: with the reversed batched result,
the first known-id entity's slot holds the first raw row (the id-2 row). -/
theorem insert_batched_read_once_result_order_witness :
    exEnvReorder.returningSupported "insert" = false ∧
    (insertionColumnsOf exEnvReorder exEm).isEmpty = false ∧
    (entityIdsOf exEnvReorder exEm exInsertRes [exEnt1, exEnt2]).isEmpty = false ∧
    0 < (phase1Entities exEnvReorder exEm exInsertRes [exEnt1, exEnt2]).length ∧
    isKnownId exEm.metadata
      ((phase1Entities exEnvReorder exEm exInsertRes [exEnt1, exEnt2]).getD 0 []) = true ∧
    (insert exEnvReorder exEm exInsertRes [exEnt1, exEnt2]).queries.filter (fun q => q.many)
      = [batchQuerySpec exEm.metadata (insertionColumnsOf exEnvReorder exEm)
          (entityIdsOf exEnvReorder exEm exInsertRes [exEnt1, exEnt2])] ∧
    (insert exEnvReorder exEm exInsertRes [exEnt1, exEnt2]).returningResult[0]?
      = some ((exEnvReorder.qGetMany (batchQuerySpec exEm.metadata
          (insertionColumnsOf exEnvReorder exEm)
          (entityIdsOf exEnvReorder exEm exInsertRes [exEnt1, exEnt2])))[
            ((phase1Entities exEnvReorder exEm exInsertRes [exEnt1, exEnt2]).take 0).countP
              (isKnownId exEm.metadata)]?) :=
  ⟨rfl, rfl, rfl, by decide, rfl,
    (insert_batched_read_once_result_order exEnvReorder exEm exInsertRes
      [exEnt1, exEnt2] rfl rfl rfl).1,
    (insert_batched_read_once_result_order exEnvReorder exEm exInsertRes
      [exEnt1, exEnt2] rfl rfl rfl).2 0 (by decide) rfl⟩

end ReturningResultsEntityUpdator

end Typeorm
